import Mathlib

/-!
Shallow embedding of the tsndef NDEF codec (TypeScript) in Lean 4.

Conventions of the embedding:
* A JavaScript `Uint8Array` is a `List Nat` whose entries are byte values.
* A JavaScript string is represented by the list of its UTF-8 bytes
  (`TextEncoder` / `TextDecoder` are therefore the identity); every string
  constant of the source appears here as a byte-list literal with the ASCII
  text in a comment.  All string operations the source performs
  (`startsWith`, `replace` of a leading prefix, equality dispatch,
  concatenation) commute with UTF-8 encoding, so this representation is
  faithful.
* Thrown JavaScript exceptions are `Except.error` with the thrown message.
* `async`/`await` in the source never suspends observably (all payload
  accessors of records built by this library are synchronous), so promised
  values are embedded as plain values.
-/

set_option maxRecDepth 40000

/-- Reading `data[i]` on a JS typed array: out-of-range (or negative) indices
give `undefined`; every such read in the embedded code is either guarded by a
bounds check or occurs in a bitwise context where `undefined` coerces to 0,
so the model returns 0 there. -/
def jsGet (l : List Nat) (i : Int) : Nat :=
  if i < 0 then 0 else l.getD i.toNat 0

/-- The `Uint8Array.prototype.slice(s, e)` of JS: negative indices count from
the end, indices are clamped to `[0, length]`, and an empty array results
when the normalized end does not exceed the normalized start. -/
def jsSlice (l : List Nat) (s e : Int) : List Nat :=
  let len : Int := l.length
  let s' := (if s < 0 then max (len + s) 0 else min s len).toNat
  let e' := (if e < 0 then max (len + e) 0 else min e len).toNat
  (l.take e').drop s'

/-- Conversion of a JS number to a signed 32-bit integer, as performed by the
bitwise operators (`<<`, `|`, `&`) of JS before they operate. -/
def toInt32 (n : Nat) : Int :=
  if n % 2 ^ 32 < 2 ^ 31 then ((n % 2 ^ 32 : Nat) : Int)
  else ((n % 2 ^ 32 : Nat) : Int) - 2 ^ 32

/-- The eight TNF (Type Name Format) categories of `src/types/TNF.ts`. -/
inductive TNF where
  | empty
  | wellKnown
  | media
  | absoluteUri
  | forumExternal
  | unknown
  | unchanged
  | reserved
deriving DecidableEq, Repr

/-- Category-to-code table `TNFLookup` of `src/TNF.ts` (`'empty': 0x00` …
`'reserved': 0x07`).  The source throws for unknown keys, but the key type is
the closed `TNF` union, so the function is total. -/
def TNFLookup : TNF → Nat
  | .empty => 0x00
  | .wellKnown => 0x01
  | .media => 0x02
  | .absoluteUri => 0x03
  | .forumExternal => 0x04
  | .unknown => 0x05
  | .unchanged => 0x06
  | .reserved => 0x07

/-- Code-to-category table `TNFCodeLookup` of `src/TNF.ts`; codes outside
0–7 throw `Unknown TNF code`. -/
def TNFCodeLookup (c : Nat) : Except String TNF :=
  match c with
  | 0x00 => .ok .empty
  | 0x01 => .ok .wellKnown
  | 0x02 => .ok .media
  | 0x03 => .ok .absoluteUri
  | 0x04 => .ok .forumExternal
  | 0x05 => .ok .unknown
  | 0x06 => .ok .unchanged
  | 0x07 => .ok .reserved
  | _ => .error "Unknown TNF code"

/-- Input of `constructHeaderByte` (`HeaderBytesInfo` in `src/bytes.ts`).
The source type pins `isChunked` to the literal `false`; we keep it a `Bool`
so the encoder's dead branch can be stated. -/
structure HeaderBytesInfo where
  tnfCode : Nat
  isBeginning : Bool
  isEnd : Bool
  isIdPresent : Bool
  isShortRecord : Bool
  isChunked : Bool
deriving DecidableEq, Repr

/-- Header byte construction of `src/bytes.ts` (`constructHeaderByte`):
successive `|=` of the flag bits, then the 3 TNF bits. -/
def constructHeaderByte (info : HeaderBytesInfo) : Nat :=
  let h0 : Nat := 0
  let h1 := if info.isBeginning then h0 ||| (1 <<< 7) else h0
  let h2 := if info.isEnd then h1 ||| (1 <<< 6) else h1
  let h3 := if info.isChunked then h2 ||| (1 <<< 5) else h2
  let h4 := if info.isShortRecord then h3 ||| (1 <<< 4) else h3
  let h5 := if info.isIdPresent then h4 ||| (1 <<< 3) else h4
  h5 ||| (info.tnfCode &&& 0x07)

/-- Decoded header fields (`NDEFRecordHeader` of `src/types/records`). -/
structure NDEFRecordHeader where
  tnf : TNF
  messageBeginFlag : Bool
  messageEndFlag : Bool
  chunkFlag : Bool
  shortRecordFlag : Bool
  idLengthFlag : Bool
deriving DecidableEq, Repr

/-- Header byte parser of `src/parse/index.ts` (`parseNDEFRecordHeader`):
rejects a set chunk bit, otherwise extracts the six fields. -/
def parseNDEFRecordHeader (headerByte : Nat) : Except String NDEFRecordHeader :=
  if headerByte &&& 0x20 ≠ 0 then
    .error "Chunked records are not supported yet"
  else
    match TNFCodeLookup (headerByte &&& 0x07) with
    | .error e => .error e
    | .ok tnf =>
      .ok
        { tnf := tnf
          messageBeginFlag := headerByte &&& 0x80 ≠ 0
          messageEndFlag := headerByte &&& 0x40 ≠ 0
          chunkFlag := false
          shortRecordFlag := headerByte &&& 0x10 ≠ 0
          idLengthFlag := headerByte &&& 0x08 ≠ 0 }

instance {ε α : Type} [DecidableEq ε] [DecidableEq α] : DecidableEq (Except ε α) :=
  fun x y =>
    match x, y with
    | .ok a, .ok b =>
      if h : a = b then .isTrue (by rw [h])
      else .isFalse (fun hc => h (Except.ok.inj hc))
    | .error a, .error b =>
      if h : a = b then .isTrue (by rw [h])
      else .isFalse (fun hc => h (Except.error.inj hc))
    | .ok _, .error _ => .isFalse (fun hc => Except.noConfusion hc)
    | .error _, .ok _ => .isFalse (fun hc => Except.noConfusion hc)

lemma TNFCodeLookup_TNFLookup (t : TNF) : TNFCodeLookup (TNFLookup t) = .ok t := by
  cases t <;> rfl

/-- Round trip of the header codec on unchunked headers: parsing the
constructed byte recovers every flag and the category. -/
lemma parse_constructHeaderByte (t : TNF) (mb me idp sr : Bool) :
    parseNDEFRecordHeader
        (constructHeaderByte
          { tnfCode := TNFLookup t, isBeginning := mb, isEnd := me,
            isIdPresent := idp, isShortRecord := sr, isChunked := false }) =
      .ok
        { tnf := t, messageBeginFlag := mb, messageEndFlag := me,
          chunkFlag := false, shortRecordFlag := sr, idLengthFlag := idp } := by
  cases t <;> cases mb <;> cases me <;> cases idp <;> cases sr <;> decide

/-- Byte list of the ASCII string `'U'`, the well-known URI record type. -/
def uTypeBytes : List Nat := [85]

/-- Byte list of `'application/json'`. -/
def mediaJsonBytes : List Nat :=
  [97, 112, 112, 108, 105, 99, 97, 116, 105, 111, 110, 47, 106, 115, 111, 110]

/-- Byte list of `'text/plain'`. -/
def mediaTextPlainBytes : List Nat := [116, 101, 120, 116, 47, 112, 108, 97, 105, 110]

/-- Byte list of `'text/html'`. -/
def mediaTextHTMLBytes : List Nat := [116, 101, 120, 116, 47, 104, 116, 109, 108]

/-- Byte list of `'image/png'`. -/
def mediaImagePNGBytes : List Nat := [105, 109, 97, 103, 101, 47, 112, 110, 103]

/-- Byte list of `'image/jpeg'`. -/
def mediaImageJPEGBytes : List Nat := [105, 109, 97, 103, 101, 47, 106, 112, 101, 103]

/-- Byte list of `'video/mp4'`. -/
def mediaVideoMP4Bytes : List Nat := [118, 105, 100, 101, 111, 47, 109, 112, 52]

/-- Byte list of `'audio/mpeg'`. -/
def mediaAudioMPEGBytes : List Nat := [97, 117, 100, 105, 111, 47, 109, 112, 101, 103]

/-- Modelled from the spec: the platform builtin `URL.canParse` guarding
`getWellKnownURIPrefixMapping` is not part of this repository.  Per the spec
a "syntactically valid URI" is required; the WHATWG URL parser accepts a
string whose scheme is an ASCII letter followed by letters, digits, `+`, `-`
or `.`, terminated by `:`.  The model checks exactly that. -/
def isAsciiAlpha (c : Nat) : Bool := (65 ≤ c && c ≤ 90) || (97 ≤ c && c ≤ 122)

/-- Modelled from the spec: scheme characters after the first (ASCII letter,
digit, `+`, `-`, `.`). -/
def isSchemeChar (c : Nat) : Bool :=
  isAsciiAlpha c || (48 ≤ c && c ≤ 57) || c == 43 || c == 45 || c == 46

/-- Modelled from the spec: `URL.canParse` (see `isAsciiAlpha`). -/
def canParseURL (uri : List Nat) : Bool :=
  let scheme := uri.takeWhile (fun c => c != 58)
  decide (scheme.length < uri.length) &&
    (match scheme with
     | [] => false
     | c :: rest => isAsciiAlpha c && rest.all isSchemeChar)

/-- Result of `getWellKnownURIPrefixMapping` (`PrefixMapping` in
`src/utils/record.ts`). -/
structure PrefixMapping where
  URIIdentifierPrefix : Nat
  URISuffix : List Nat
deriving DecidableEq, Repr

/-- Ordered prefix cascade of `getWellKnownURIPrefixMapping`: the
`switch (true)` statement checks these `URI.startsWith(...)` cases from top
to bottom, so this list is in the exact source order (codes 0x01 … 0x23). -/
def wellKnownURICascade : List (Nat × List Nat) :=
  [ (0x01, [104, 116, 116, 112, 58, 47, 47, 119, 119, 119, 46]),  -- http://www.
    (0x02, [104, 116, 116, 112, 115, 58, 47, 47, 119, 119, 119, 46]),  -- https://www.
    (0x03, [104, 116, 116, 112, 58, 47, 47]),  -- http://
    (0x04, [104, 116, 116, 112, 115, 58, 47, 47]),  -- https://
    (0x05, [116, 101, 108, 58]),  -- tel:
    (0x06, [109, 97, 105, 108, 116, 111, 58]),  -- mailto:
    (0x07, [102, 116, 112, 58, 47, 47, 97, 110, 111, 110, 121, 109, 111, 117, 115, 58, 97, 110, 111, 110, 121, 109, 111, 117, 115, 64]),  -- ftp://anonymous:anonymous@
    (0x08, [102, 116, 112, 58, 47, 47, 102, 116, 112, 46]),  -- ftp://ftp.
    (0x09, [102, 116, 112, 115, 58, 47, 47]),  -- ftps://
    (0x0A, [115, 102, 116, 112, 58, 47, 47]),  -- sftp://
    (0x0B, [115, 109, 98, 58, 47, 47]),  -- smb://
    (0x0C, [110, 102, 115, 58, 47, 47]),  -- nfs://
    (0x0D, [102, 116, 112, 58, 47, 47]),  -- ftp://
    (0x0E, [100, 97, 118, 58, 47, 47]),  -- dav://
    (0x0F, [110, 101, 119, 115, 58]),  -- news:
    (0x10, [116, 101, 108, 110, 101, 116, 58, 47, 47]),  -- telnet://
    (0x11, [105, 109, 97, 112, 58]),  -- imap:
    (0x12, [114, 116, 115, 112, 58, 47, 47]),  -- rtsp://
    (0x13, [117, 114, 110, 58]),  -- urn:
    (0x14, [112, 111, 112, 58]),  -- pop:
    (0x15, [115, 105, 112, 58]),  -- sip:
    (0x16, [115, 105, 112, 115, 58]),  -- sips:
    (0x17, [116, 102, 116, 112, 58]),  -- tftp:
    (0x18, [98, 116, 115, 112, 112, 58, 47, 47]),  -- btspp://
    (0x19, [98, 116, 108, 50, 99, 97, 112, 58, 47, 47]),  -- btl2cap://
    (0x1A, [98, 116, 103, 111, 101, 112, 58, 47, 47]),  -- btgoep://
    (0x1B, [116, 99, 112, 111, 98, 101, 120, 58, 47, 47]),  -- tcpobex://
    (0x1C, [105, 114, 100, 97, 111, 98, 101, 120, 58, 47, 47]),  -- irdaobex://
    (0x1D, [102, 105, 108, 101, 58, 47, 47]),  -- file://
    (0x1E, [117, 114, 110, 58, 101, 112, 99, 58, 105, 100, 58]),  -- urn:epc:id:
    (0x1F, [117, 114, 110, 58, 101, 112, 99, 58, 116, 97, 103, 58]),  -- urn:epc:tag:
    (0x20, [117, 114, 110, 58, 101, 112, 99, 58, 112, 97, 116, 58]),  -- urn:epc:pat:
    (0x21, [117, 114, 110, 58, 101, 112, 99, 58, 114, 97, 119, 58]),  -- urn:epc:raw:
    (0x22, [117, 114, 110, 58, 101, 112, 99, 58]),  -- urn:epc:
    (0x23, [117, 114, 110, 58, 110, 102, 99, 58]) ]  -- urn:nfc:

/-- URI compression of `src/utils/record.ts` (`getWellKnownURIPrefixMapping`):
reject an invalid URI, then take the FIRST case of the cascade whose prefix
matches; `URI.replace(p, '')` on a string starting with `p` removes exactly
that leading prefix, i.e. drops `p.length` characters.  With no match, code
0x00 and the unabridged URI. -/
def getWellKnownURIPrefixMapping (URI : List Nat) : Except String PrefixMapping :=
  if !canParseURL URI then .error "Provided URI is not a valid URI"
  else
    .ok
      (match wellKnownURICascade.find? (fun e => e.2.isPrefixOf URI) with
       | some e => { URIIdentifierPrefix := e.1, URISuffix := URI.drop e.2.length }
       | none => { URIIdentifierPrefix := 0x00, URISuffix := URI })

/-- Decode-side table `prefixMappings` of `reconstructURIFromPrefix`
(`src/utils/record.ts`), keyed by prefix code 0x00 … 0x23. -/
def prefixMappings : List (Nat × List Nat) :=
  (0x00, []) :: wellKnownURICascade

/-- URI reconstruction of `src/utils/record.ts` (`reconstructURIFromPrefix`;
the name here adds `Code` for technical reasons): `prefixCode in
prefixMappings` then `prefix + suffix`; unknown codes throw. -/
def reconstructURIFromPrefixCode (prefixCode : Nat) (suffix : List Nat) :
    Except String (List Nat) :=
  match prefixMappings.lookup prefixCode with
  | none => .error "Invalid prefix code"
  | some p => .ok (p ++ suffix)

/-- Wire-relevant fields of a record built by the library
(`BaseNDEFRecord`): category, raw type / id / payload bytes, each accessor
embedded by its (pure) value. -/
structure ERecord where
  tnf : TNF
  rawType : List Nat
  rawId : Option (List Nat)
  rawPayload : List Nat
deriving DecidableEq, Repr

/-- Record plus its message-position flags (`RecordInfo` in
`src/bytes.ts`). -/
structure RecordInfo where
  record : ERecord
  isBeginning : Bool
  isEnd : Bool
deriving DecidableEq, Repr

/-- Record-level encoder of `src/bytes.ts` (`constructBytesFromRecordInfo`):
bound checks, header byte, then
type-length, payload-length (1 byte if short, else 4 big-endian),
optional id-length, type bytes, id bytes, payload bytes.
`new Uint8Array([n])` stores `n` modulo 256; the preceding bound checks make
every `% 256` here the identity.  The JS `(length >> k) & 0xFF` operates on
the signed 32-bit wrap of `length`, which for `length < 2^32` equals the
unsigned big-endian byte `length / 2^k % 256`. -/
def constructBytesFromRecordInfo (info : RecordInfo) : Except String (List Nat) :=
  let rawPayload := info.record.rawPayload
  let rawType := info.record.rawType
  let rawId := info.record.rawId
  if rawPayload.length > 2 ^ 32 - 1 then
    .error "Payload length exceeds maximum allowed length of 2^32 - 1 bytes."
  else if rawType.length > 255 then
    .error "Type length exceeds maximum allowed length of 255 bytes."
  else if rawId.any fun i => 255 < i.length then
    .error "ID length exceeds maximum allowed length of 255 bytes."
  else
    let isShortRecord : Bool := rawPayload.length < 256
    let isIdPresent : Bool := rawId.isSome
    let headerByte :=
      constructHeaderByte
        { tnfCode := TNFLookup info.record.tnf
          isBeginning := info.isBeginning
          isEnd := info.isEnd
          isChunked := false
          isShortRecord := isShortRecord
          isIdPresent := isIdPresent }
    let typeLengthBytes : List Nat := [rawType.length % 256]
    let payloadLengthBytes : List Nat :=
      if isShortRecord then [rawPayload.length % 256]
      else
        [rawPayload.length / 2 ^ 24 % 256,
         rawPayload.length / 2 ^ 16 % 256,
         rawPayload.length / 2 ^ 8 % 256,
         rawPayload.length % 256]
    let idLengthBytes : List Nat :=
      match rawId with
      | none => []
      | some i => [i.length % 256]
    let idBytes := rawId.getD []
    .ok ([headerByte] ++ typeLengthBytes ++ payloadLengthBytes ++ idLengthBytes
          ++ rawType ++ idBytes ++ rawPayload)

/-- Message-level encoder of `src/bytes.ts` (`constructBytes`): empty input
gives an empty array; otherwise every record is encoded and concatenated
while begin/end flags are tallied, the four flag validations run, and the
result is wrapped in the TLV envelope.  In the source's long-length branch
(more than 0xFE record bytes) the local `lengthBytes` array is filled but
`NDEFMessageLength` is never assigned, so spreading that undefined variable
into the final array throws a TypeError; the embedding surfaces that crash
as an error. -/
def constructBytes (infos : List RecordInfo) : Except String (List Nat) :=
  if infos.length = 0 then .ok []
  else
    match infos.mapM constructBytesFromRecordInfo with
    | .error e => .error e
    | .ok parts =>
      let result := parts.flatten
      let st :=
        infos.foldl
          (fun (st : Bool × Bool × Bool × Bool) info =>
            let multB := if info.isBeginning && st.1 then true else st.2.2.1
            let hasB := st.1 || info.isBeginning
            let multE := if info.isEnd && st.2.1 then true else st.2.2.2
            let hasE := st.2.1 || info.isEnd
            (hasB, hasE, multB, multE))
          (false, false, false, false)
      if st.2.2.1 then
        .error "Multiple records with message begin flag found. Only one record can have the message begin flag."
      else if st.2.2.2 then
        .error "Multiple records with message end flag found. Only one record can have the message end flag."
      else if !st.1 then
        .error "No record with message begin flag found. At least one record must have the message begin flag."
      else if !st.2.1 then
        .error "No record with message end flag found. At least one record must have the message end flag."
      else
        let messageLength := result.length
        if 0xFE < result.length then
          .error "TypeError: NDEFMessageLength is undefined"
        else
          .ok ([0x03] ++ [messageLength % 256] ++ result ++ [0xFE])

/-- Serialization `NDEFMessage.toBytes` of `src/message.ts`: the first
record gets the begin flag, the last one the end flag, then
`constructBytes`. -/
def toBytes (records : List ERecord) : Except String (List Nat) :=
  constructBytes
    (records.mapIdx fun index r =>
      { record := r, isBeginning := index == 0, isEnd := index == records.length - 1 })

/-- Builder `createNDEFRecordWellKnownURI` of `src/records/wellKnown.ts`:
compress the URI (throwing on an invalid one) and store prefix code byte
plus UTF-8 suffix as the raw payload. -/
def createNDEFRecordWellKnownURI (uri : List Nat) (id : Option (List Nat)) :
    Except String ERecord :=
  match getWellKnownURIPrefixMapping uri with
  | .error e => .error e
  | .ok m =>
    .ok
      { tnf := .wellKnown, rawType := uTypeBytes, rawId := id,
        rawPayload := [m.URIIdentifierPrefix] ++ m.URISuffix }

/-- Payload representation carried by a parsed record.  Eagerly reconstructed
payloads store their value (`uri`); lazily reconstructed ones store the raw
bytes the accessor will parse on demand (`jsonRaw`); text payloads are their
(identity-)decoded bytes; binary and unrecognized payloads are raw bytes. -/
inductive PPayload where
  | uri (fullURI : List Nat)
  | jsonRaw (raw : List Nat)
  | text (raw : List Nat)
  | binary (raw : List Nat)
  | unidentified (raw : List Nat)
deriving DecidableEq, Repr

/-- Record produced by the decode pipeline (`NDEFRecord`): category, decoded
type string, optional decoded id, raw payload bytes, recognition flag, and
the payload representation backing the `payload` / `safePayload`
accessors. -/
structure PRecord where
  tnf : TNF
  type : List Nat
  id : Option (List Nat)
  rawPayload : List Nat
  isIdentified : Bool
  payloadVal : PPayload
deriving DecidableEq, Repr

/-- Logical payload value returned by a record's `payload()` accessor:
a (UTF-8) string, a structured JSON value, or raw bytes. -/
inductive PValue (α : Type) where
  | str (s : List Nat)
  | json (v : α)
  | bytes (b : List Nat)
deriving DecidableEq, Repr

/-- Result type of the non-throwing `safePayload()` accessor
(`SafePayload` in `src/types/records`). -/
structure SafePayload (α : Type) where
  success : Bool
  payload : Option (PValue α)
  error : Option String
deriving DecidableEq, Repr

/-- Accessor `payload()` of a parsed record.  The JSON media record parses
its raw bytes only here — `JSON.parse` is a platform builtin, so the theorems
are parameterized by its behaviour `jsonParse`. -/
def PRecord.payload {α : Type} (jsonParse : List Nat → Except String α)
    (r : PRecord) : Except String (PValue α) :=
  match r.payloadVal with
  | .uri u => .ok (.str u)
  | .jsonRaw raw =>
    match jsonParse raw with
    | .error e => .error e
    | .ok v => .ok (.json v)
  | .text raw => .ok (.str raw)
  | .binary raw => .ok (.bytes raw)
  | .unidentified raw => .ok (.bytes raw)

/-- Accessor `safePayload()` of a parsed record: never fails, catching the
JSON parse failure into a `success = false` result object. -/
def PRecord.safePayload {α : Type} (jsonParse : List Nat → Except String α)
    (r : PRecord) : SafePayload α :=
  match r.payloadVal with
  | .uri u => ⟨true, some (.str u), none⟩
  | .jsonRaw raw =>
    match jsonParse raw with
    | .error e => ⟨false, none, some e⟩
    | .ok v => ⟨true, some (.json v), none⟩
  | .text raw => ⟨true, some (.str raw), none⟩
  | .binary raw => ⟨true, some (.bytes raw), none⟩
  | .unidentified raw => ⟨true, some (.bytes raw), none⟩

/-- Parser-side constructor `createNDEFRecordWellKnownURIFromBytes` of
`src/records/wellKnownFromBytes.ts`: throws on an empty payload, then
reconstructs the full URI EAGERLY from `rawPayload[0]` (prefix code) and the
decoded remainder, throwing on an unknown prefix code. -/
def createNDEFRecordWellKnownURIFromBytes (rawPayload : List Nat)
    (id : Option (List Nat)) : Except String PRecord :=
  if rawPayload.length = 0 then .error "URI record payload cannot be empty"
  else
    let prefixCode := rawPayload.headD 0
    let suffix := rawPayload.drop 1
    match reconstructURIFromPrefixCode prefixCode suffix with
    | .error e => .error e
    | .ok fullURI =>
      .ok
        { tnf := .wellKnown, type := uTypeBytes, id := id,
          rawPayload := rawPayload, isIdentified := true,
          payloadVal := .uri fullURI }

/-- Parser-side constructor `createNDEFRecordMediaApplicationJsonFromBytes`
of `src/records/mediaFromBytes.ts`: total — the JSON text is parsed only
inside the (safe) payload accessor, never here. -/
def createNDEFRecordMediaApplicationJsonFromBytes (rawPayload : List Nat)
    (id : Option (List Nat)) : PRecord :=
  { tnf := .media, type := mediaJsonBytes, id := id, rawPayload := rawPayload,
    isIdentified := true, payloadVal := .jsonRaw rawPayload }

/-- Parser-side constructor for `text/plain` media records. -/
def createNDEFRecordMediaTextPlainFromBytes (rawPayload : List Nat)
    (id : Option (List Nat)) : PRecord :=
  { tnf := .media, type := mediaTextPlainBytes, id := id,
    rawPayload := rawPayload, isIdentified := true,
    payloadVal := .text rawPayload }

/-- Parser-side constructor for `text/html` media records. -/
def createNDEFRecordMediaTextHTMLFromBytes (rawPayload : List Nat)
    (id : Option (List Nat)) : PRecord :=
  { tnf := .media, type := mediaTextHTMLBytes, id := id,
    rawPayload := rawPayload, isIdentified := true,
    payloadVal := .text rawPayload }

/-- Parser-side constructor for `image/png` media records. -/
def createNDEFRecordMediaImagePNGFromBytes (rawPayload : List Nat)
    (id : Option (List Nat)) : PRecord :=
  { tnf := .media, type := mediaImagePNGBytes, id := id,
    rawPayload := rawPayload, isIdentified := true,
    payloadVal := .binary rawPayload }

/-- Parser-side constructor for `image/jpeg` media records. -/
def createNDEFRecordMediaImageJPEGFromBytes (rawPayload : List Nat)
    (id : Option (List Nat)) : PRecord :=
  { tnf := .media, type := mediaImageJPEGBytes, id := id,
    rawPayload := rawPayload, isIdentified := true,
    payloadVal := .binary rawPayload }

/-- Parser-side constructor for `video/mp4` media records. -/
def createNDEFRecordMediaVideoMP4FromBytes (rawPayload : List Nat)
    (id : Option (List Nat)) : PRecord :=
  { tnf := .media, type := mediaVideoMP4Bytes, id := id,
    rawPayload := rawPayload, isIdentified := true,
    payloadVal := .binary rawPayload }

/-- Parser-side constructor for `audio/mpeg` media records. -/
def createNDEFRecordMediaAudioMPEGFromBytes (rawPayload : List Nat)
    (id : Option (List Nat)) : PRecord :=
  { tnf := .media, type := mediaAudioMPEGBytes, id := id,
    rawPayload := rawPayload, isIdentified := true,
    payloadVal := .binary rawPayload }

/-- Fallback constructor `createUnidentifiedRecord` of
`src/utils/record.ts`: carries the payload as opaque bytes,
`isIdentified = false`. -/
def createUnidentifiedRecord (tnf : TNF) (type : List Nat)
    (rawPayload : List Nat) (id : Option (List Nat)) : PRecord :=
  { tnf := tnf, type := type, id := id, rawPayload := rawPayload,
    isIdentified := false, payloadVal := .unidentified rawPayload }

/-- Dispatch `createWellKnownRecord` of `src/parse/index.ts`. -/
def createWellKnownRecord (type : List Nat) (rawPayload : List Nat)
    (id : Option (List Nat)) : Except String PRecord :=
  if type = uTypeBytes then createNDEFRecordWellKnownURIFromBytes rawPayload id
  else .ok (createUnidentifiedRecord .wellKnown type rawPayload id)

/-- Dispatch `createMediaRecord` of `src/parse/index.ts`. -/
def createMediaRecord (type : List Nat) (rawPayload : List Nat)
    (id : Option (List Nat)) : Except String PRecord :=
  if type = mediaJsonBytes then
    .ok (createNDEFRecordMediaApplicationJsonFromBytes rawPayload id)
  else if type = mediaTextPlainBytes then
    .ok (createNDEFRecordMediaTextPlainFromBytes rawPayload id)
  else if type = mediaTextHTMLBytes then
    .ok (createNDEFRecordMediaTextHTMLFromBytes rawPayload id)
  else if type = mediaImagePNGBytes then
    .ok (createNDEFRecordMediaImagePNGFromBytes rawPayload id)
  else if type = mediaImageJPEGBytes then
    .ok (createNDEFRecordMediaImageJPEGFromBytes rawPayload id)
  else if type = mediaVideoMP4Bytes then
    .ok (createNDEFRecordMediaVideoMP4FromBytes rawPayload id)
  else if type = mediaAudioMPEGBytes then
    .ok (createNDEFRecordMediaAudioMPEGFromBytes rawPayload id)
  else .ok (createUnidentifiedRecord .media type rawPayload id)

/-- Dispatch `createNDEFRecordFromRawData` of `src/parse/index.ts`
(`TextDecoder` on raw type/id bytes is the identity in this embedding). -/
def createNDEFRecordFromRawData (tnf : TNF) (rawType : List Nat)
    (rawPayload : List Nat) (rawId : Option (List Nat)) :
    Except String PRecord :=
  if tnf = .wellKnown then createWellKnownRecord rawType rawPayload rawId
  else if tnf = .media then createMediaRecord rawType rawPayload rawId
  else .ok (createUnidentifiedRecord tnf rawType rawPayload rawId)

/-- Result of parsing a single record (`ParsedNDEFRecordResult`).  The
offset is an `Int` because the JS cursor arithmetic runs on numbers whose
long-form payload length passed through signed 32-bit bitwise operators. -/
structure ParsedNDEFRecordResult where
  record : PRecord
  nextOffset : Int
  isMessageEnd : Bool
deriving DecidableEq, Repr

/-- Single-record parser `parseNDEFRecord` of `src/parse/index.ts`: header
byte, TYPE_LENGTH, PAYLOAD_LENGTH (1 byte when the short-record flag is set,
else 4 big-endian bytes combined with signed 32-bit `<<`/`|`), optional
ID_LENGTH, then the TYPE, ID and PAYLOAD slices, each read guarded by a
remaining-length check; finally the type dispatch builds the record. -/
def parseNDEFRecord (data : List Nat) (offset : Int) :
    Except String ParsedNDEFRecordResult :=
  if (data.length : Int) ≤ offset then
    .error "Unexpected end of data while parsing NDEF record"
  else
    match parseNDEFRecordHeader (jsGet data offset) with
    | .error e => .error e
    | .ok header =>
      let o1 := offset + 1
      if (data.length : Int) ≤ o1 then
        .error "Unexpected end of data while reading TYPE_LENGTH"
      else
        let typeLength : Int := jsGet data o1
        let o2 := o1 + 1
        let plRes : Except String (Int × Int) :=
          if header.shortRecordFlag then
            if (data.length : Int) ≤ o2 then
              .error "Unexpected end of data while reading PAYLOAD_LENGTH (short record)"
            else .ok ((jsGet data o2 : Int), o2 + 1)
          else
            if (data.length : Int) < o2 + 4 then
              .error "Unexpected end of data while reading PAYLOAD_LENGTH (long record)"
            else
              .ok (toInt32 ((jsGet data o2 <<< 24) ||| (jsGet data (o2 + 1) <<< 16)
                      ||| (jsGet data (o2 + 2) <<< 8) ||| jsGet data (o2 + 3)),
                   o2 + 4)
        match plRes with
        | .error e => .error e
        | .ok (payloadLength, o3) =>
          let ilRes : Except String (Int × Int) :=
            if header.idLengthFlag then
              if (data.length : Int) ≤ o3 then
                .error "Unexpected end of data while reading ID_LENGTH"
              else .ok ((jsGet data o3 : Int), o3 + 1)
            else .ok (0, o3)
          match ilRes with
          | .error e => .error e
          | .ok (idLength, o4) =>
            if (data.length : Int) < o4 + typeLength then
              .error "Unexpected end of data while reading TYPE"
            else
              let rawType := jsSlice data o4 (o4 + typeLength)
              let o5 := o4 + typeLength
              let idRes : Except String (Option (List Nat) × Int) :=
                if header.idLengthFlag then
                  if (data.length : Int) < o5 + idLength then
                    .error "Unexpected end of data while reading ID"
                  else .ok (some (jsSlice data o5 (o5 + idLength)), o5 + idLength)
                else .ok (none, o5)
              match idRes with
              | .error e => .error e
              | .ok (rawId, o6) =>
                if (data.length : Int) < o6 + payloadLength then
                  .error "Unexpected end of data while reading PAYLOAD"
                else
                  let rawPayload := jsSlice data o6 (o6 + payloadLength)
                  let o7 := o6 + payloadLength
                  match createNDEFRecordFromRawData header.tnf rawType rawPayload rawId with
                  | .error e => .error e
                  | .ok record =>
                    .ok { record := record, nextOffset := o7,
                          isMessageEnd := header.messageEndFlag }

/-- Record iteration loop of `parseNDEFMessage` (`while (offset <
data.length)`), embedded with explicit fuel: every well-formed iteration
advances the cursor by at least 3 bytes, so `data.length` fuel is ample for
any run the theorems below touch; exhausted fuel marks a run of the source
loop that never returns. -/
def parseLoopF (data : List Nat) : Nat → Int → Except String (List PRecord)
  | fuel, offset =>
    if offset < (data.length : Int) then
      match fuel with
      | 0 => .error "NDEF record loop did not terminate"
      | f + 1 =>
        match parseNDEFRecord data offset with
        | .error e => .error e
        | .ok res =>
          if res.isMessageEnd then .ok [res.record]
          else
            match parseLoopF data f res.nextOffset with
            | .error e => .error e
            | .ok rest => .ok (res.record :: rest)
    else .ok []

/-- Zero stripping of `src/parse/index.ts` (`stripLeadingTrailingZeros`):
advance past leading 0x00 bytes, retreat past trailing ones, slice. -/
def stripLeadingTrailingZeros (data : List Nat) : List Nat :=
  ((data.dropWhile fun b => b == 0).reverse.dropWhile fun b => b == 0).reverse

/-- TLV validation of `src/parse/index.ts` (`validateAndStripTLV`): length
at least 3, tag byte 0x03, terminator 0xFE, short (1-byte) or long
(0xFF + 2 bytes big-endian) length form, exact total-length match, the
empty-value early return, the 4-byte rejection, then the value slice. -/
def validateAndStripTLV (data : List Nat) : Except String (List Nat) :=
  if data.length < 3 then .error "TLV structure is malformed: not enough data"
  else if jsGet data 0 ≠ 0x03 then
    .error "TLV structure is malformed: first byte is not 0x03"
  else if jsGet data ((data.length : Int) - 1) ≠ 0xFE then
    .error "TLV structure is malformed: last byte is not 0xFE"
  else
    let hl : Except String (Nat × Nat) :=
      if jsGet data 1 < 0xFF then .ok (jsGet data 1, 2)
      else if jsGet data 1 = 0xFF then
        if data.length < 5 then
          .error "TLV structure is malformed: long length format requires at least 5 bytes"
        else .ok ((jsGet data 2 <<< 8) ||| jsGet data 3, 4)
      else .error "TLV structure is malformed: invalid length field format"
    match hl with
    | .error e => .error e
    | .ok (length, headerSize) =>
      let expectedTotalLength := headerSize + length + 1
      if data.length ≠ expectedTotalLength then
        .error ("TLV structure is malformed: expected total length "
          ++ toString expectedTotalLength ++ ", got " ++ toString data.length)
      else if length = 0 then .ok []
      else if data.length = 4 then
        .error "TLV structure is malformed: length field must be 1 or 3 bytes"
      else .ok (jsSlice data headerSize ((data.length : Int) - 1))

/-- Top-level decoder `parseNDEFMessage` of `src/parse/index.ts`: strip the
zero padding, handle the fully-padded buffer, unwrap the TLV, handle the
empty value, then iterate the record loop from cursor 0. -/
def parseNDEFMessage (data : List Nat) : Except String (List PRecord) :=
  let stripped := stripLeadingTrailingZeros data
  if stripped.length = 0 then .ok []
  else
    match validateAndStripTLV stripped with
    | .error e => .error e
    | .ok d =>
      if d.length = 0 then .ok []
      else parseLoopF d d.length 0

/-- Byte list of the ASCII string `'http://www.nfc.com'` of the spec's
concrete encode example. -/
def nfcExampleURIBytes : List Nat :=
  [104, 116, 116, 112, 58, 47, 47, 119, 119, 119, 46, 110, 102, 99, 46, 99, 111, 109]

/-- Byte list of the ASCII string `'urn:epc:id:x'`, a syntactically valid
URI starting with the table prefix `urn:epc:id:` (code 0x1E). -/
def urnEpcIdExampleBytes : List Nat :=
  [117, 114, 110, 58, 101, 112, 99, 58, 105, 100, 58, 120]

/-- C6: a message holding the single well-known URI record with payload
`http://www.nfc.com` has record-level encoding exactly
`D1 01 08 55 01 6E 66 63 2E 63 6F 6D` (header 0xD1 = MB, ME, SR set, TNF=1;
type-length 1; payload-length 8; type `'U'` = 0x55; payload = prefix byte
0x01 plus the UTF-8 bytes of `nfc.com`); the message-level encoding
`toBytes` wraps exactly these bytes in the TLV envelope `03 0C … FE`. -/
theorem c6_concrete_encode_nfc_example :
    ((createNDEFRecordWellKnownURI nfcExampleURIBytes none).bind fun r =>
        constructBytesFromRecordInfo { record := r, isBeginning := true, isEnd := true }) =
      .ok [0xD1, 0x01, 0x08, 0x55, 0x01, 0x6E, 0x66, 0x63, 0x2E, 0x63, 0x6F, 0x6D]
    ∧ ((createNDEFRecordWellKnownURI nfcExampleURIBytes none).bind fun r => toBytes [r]) =
      .ok ([0x03, 0x0C] ++ [0xD1, 0x01, 0x08, 0x55, 0x01, 0x6E, 0x66, 0x63, 0x2E, 0x63, 0x6F, 0x6D] ++ [0xFE]) := by
  decide

/-- C2 (code bug): encoding a record list whose concatenated record bytes
total 254 emits the 1-byte TLV length form, but as soon as the total exceeds
254 the source's long-length branch crashes — it fills the local
`lengthBytes` and never assigns `NDEFMessageLength`, so the claimed
`0xFF` + 2-byte big-endian form is never produced.  The failing input is a
single `image/png` record with a 243-byte payload (255 record bytes). -/
theorem c2_tlv_long_form_crash :
    constructBytes
        [{ record := { tnf := .media, rawType := mediaImagePNGBytes, rawId := none,
                       rawPayload := List.replicate 243 0xAA },
           isBeginning := true, isEnd := true }] =
      .error "TypeError: NDEFMessageLength is undefined"
    ∧ constructBytes
        [{ record := { tnf := .media, rawType := mediaImagePNGBytes, rawId := none,
                       rawPayload := List.replicate 242 0xAA },
           isBeginning := true, isEnd := true }] =
      .ok ([0x03, 0xFE, 0xD2, 0x09, 0xF2] ++ mediaImagePNGBytes
            ++ List.replicate 242 0xAA ++ [0xFE]) := by
  constructor
  · decide
  · decide

/-- C7: the header byte packs bit7 = MessageBegin, bit6 = MessageEnd,
bit5 = ChunkFlag (0 here), bit4 = ShortRecord, bit3 = IdLengthPresent and
bits 2-0 = TNF code into one byte; decoding any byte with bit5 clear
recovers exactly these six fields (decode ∘ encode is the identity on
chunkless header tuples and encode ∘ decode is the identity on chunkless
bytes), and decoding any byte with bit5 set fails because chunking is
unsupported. -/
theorem c7_header_byte_codec :
    (∀ (t : TNF) (mb me idp sr : Bool),
      constructHeaderByte
          { tnfCode := TNFLookup t, isBeginning := mb, isEnd := me,
            isIdPresent := idp, isShortRecord := sr, isChunked := false } =
        (if mb then 128 else 0) + (if me then 64 else 0) + (if sr then 16 else 0)
          + (if idp then 8 else 0) + TNFLookup t)
    ∧ (∀ (t : TNF) (mb me idp sr : Bool),
      parseNDEFRecordHeader
          (constructHeaderByte
            { tnfCode := TNFLookup t, isBeginning := mb, isEnd := me,
              isIdPresent := idp, isShortRecord := sr, isChunked := false }) =
        .ok
          { tnf := t, messageBeginFlag := mb, messageEndFlag := me,
            chunkFlag := false, shortRecordFlag := sr, idLengthFlag := idp })
    ∧ (∀ b : Fin 256, b.val &&& 0x20 ≠ 0 →
      parseNDEFRecordHeader b.val = .error "Chunked records are not supported yet")
    ∧ (∀ b : Fin 256, b.val &&& 0x20 = 0 →
      (parseNDEFRecordHeader b.val).map
          (fun h =>
            constructHeaderByte
              { tnfCode := TNFLookup h.tnf, isBeginning := h.messageBeginFlag,
                isEnd := h.messageEndFlag, isIdPresent := h.idLengthFlag,
                isShortRecord := h.shortRecordFlag, isChunked := false }) =
        .ok b.val) := by
  refine ⟨?_, ?_, ?_, ?_⟩
  · intro t mb me idp sr
    cases t <;> cases mb <;> cases me <;> cases idp <;> cases sr <;> decide
  · intro t mb me idp sr
    exact parse_constructHeaderByte t mb me idp sr
  · decide
  · decide

/-- Witness for C7 at the concrete bytes 0x20 (chunk bit set, decode fails)
and 0xD1 (chunk bit clear, decode then encode reproduces the byte). -/
theorem c7_header_byte_codec_witness :
    parseNDEFRecordHeader 0x20 = .error "Chunked records are not supported yet"
    ∧ (parseNDEFRecordHeader 0xD1).map
        (fun h =>
          constructHeaderByte
            { tnfCode := TNFLookup h.tnf, isBeginning := h.messageBeginFlag,
              isEnd := h.messageEndFlag, isIdPresent := h.idLengthFlag,
              isShortRecord := h.shortRecordFlag, isChunked := false }) =
      .ok 0xD1 :=
  ⟨c7_header_byte_codec.2.2.1 ⟨0x20, by decide⟩ (by decide),
   c7_header_byte_codec.2.2.2 ⟨0xD1, by decide⟩ (by decide)⟩

/-- C3 (counterexample): the URI `urn:epc:id:x` is a syntactically valid URI
that starts with the table prefix `urn:epc:id:` (code 0x1E), yet the encoder
compresses it with code 0x13 (`urn:`) because the `switch (true)` cascade
checks `urn:` before the longer `urn:epc:` prefixes — the longest matching
prefix is NOT chosen. -/
theorem c3_counterexample_urn_epc_id :
    canParseURL urnEpcIdExampleBytes = true
    ∧ List.isPrefixOf [117, 114, 110, 58, 101, 112, 99, 58, 105, 100, 58]
        urnEpcIdExampleBytes = true
    ∧ getWellKnownURIPrefixMapping urnEpcIdExampleBytes =
        .ok { URIIdentifierPrefix := 0x13,
              URISuffix := [101, 112, 99, 58, 105, 100, 58, 120] }
    ∧ (0x13 : Nat) ≠ 0x1E := by
  decide

lemma prefix_append_drop {p l : List Nat} (h : p.isPrefixOf l = true) :
    p ++ l.drop p.length = l := by
  have hp : p <+: l := by rwa [← List.isPrefixOf_iff_prefix]
  have ht : p = l.take p.length := List.prefix_iff_eq_take.mp hp
  conv_rhs => rw [← List.take_append_drop p.length l]
  rw [← ht]

lemma cascade_entries (e : Nat × List Nat) (he : e ∈ wellKnownURICascade) :
    e.1 ≤ 0x23 ∧ prefixMappings.lookup e.1 = some e.2 := by
  have h : wellKnownURICascade.all
      (fun e => decide (e.1 ≤ 0x23) && (prefixMappings.lookup e.1 == some e.2)) = true := by
    decide
  have h2 := List.all_eq_true.mp h e he
  simp only [Bool.and_eq_true, decide_eq_true_eq, beq_iff_eq] at h2
  exact h2

/-- C3 (amended): for every syntactically valid URI the encoder substitutes
the FIRST prefix of the cascade (checked in code order 0x01 … 0x23) that
matches, with code 0x00 and the unabridged URI when none matches; the
substitution is always lossless — reconstructing prefix + suffix returns the
original URI — but a URI starting with `urn:epc:id:` is compressed with the
shorter prefix `urn:` (code 0x13), not with code 0x1E. -/
theorem c3_first_match_and_lossless :
    (∀ uri : List Nat, canParseURL uri = true →
      ∃ m, getWellKnownURIPrefixMapping uri = .ok m
        ∧ m.URIIdentifierPrefix ≤ 0x23
        ∧ reconstructURIFromPrefixCode m.URIIdentifierPrefix m.URISuffix = .ok uri)
    ∧ getWellKnownURIPrefixMapping urnEpcIdExampleBytes =
        .ok { URIIdentifierPrefix := 0x13, URISuffix := urnEpcIdExampleBytes.drop 4 } := by
  constructor
  · intro uri h
    unfold getWellKnownURIPrefixMapping
    rw [h]
    simp only [Bool.not_true, Bool.false_eq_true, if_false]
    cases hf : wellKnownURICascade.find? (fun e => e.2.isPrefixOf uri) with
    | none =>
      refine ⟨_, rfl, by norm_num, ?_⟩
      unfold reconstructURIFromPrefixCode
      rfl
    | some e =>
      have hm := List.mem_of_find?_eq_some hf
      have hp0 := List.find?_some hf
      have hp : e.2.isPrefixOf uri = true := hp0
      obtain ⟨hle, hlook⟩ := cascade_entries e hm
      dsimp only
      refine ⟨_, rfl, hle, ?_⟩
      unfold reconstructURIFromPrefixCode
      rw [hlook]
      dsimp only
      rw [prefix_append_drop hp]
  · decide

/-- Witness for C3's amended theorem at the URI `urn:epc:id:x`. -/
theorem c3_first_match_and_lossless_witness :
    canParseURL urnEpcIdExampleBytes = true
    ∧ ∃ m, getWellKnownURIPrefixMapping urnEpcIdExampleBytes = .ok m
        ∧ m.URIIdentifierPrefix ≤ 0x23
        ∧ reconstructURIFromPrefixCode m.URIIdentifierPrefix m.URISuffix =
            .ok urnEpcIdExampleBytes :=
  ⟨by decide, c3_first_match_and_lossless.1 _ (by decide)⟩

lemma jsGet_coe (l : List Nat) (n : Nat) : jsGet l (n : Int) = l.getD n 0 := by
  unfold jsGet
  rw [if_neg (by omega : ¬ (n : Int) < 0)]
  simp

lemma jsSlice_coe (l : List Nat) (s e : Nat) (hs : s ≤ l.length) (he : e ≤ l.length) :
    jsSlice l (s : Int) (e : Int) = (l.take e).drop s := by
  simp only [jsSlice]
  rw [if_neg (by omega : ¬ (s : Int) < 0), if_neg (by omega : ¬ (e : Int) < 0)]
  rw [min_eq_left (by exact_mod_cast hs), min_eq_left (by exact_mod_cast he)]
  simp

lemma drop_take_self (l : List Nat) (n : Nat) : (l.take n).drop n = [] := by
  rw [List.drop_eq_nil_iff]
  exact (l.length_take n).le.trans (min_le_left _ _)

lemma jsSlice_same (l : List Nat) (n : Int) (hn : 0 ≤ n) (hl : n ≤ (l.length : Int)) :
    jsSlice l n n = [] := by
  simp only [jsSlice]
  rw [if_neg (by omega : ¬ n < 0)]
  rw [min_eq_left hl]
  exact drop_take_self l n.toNat

/-- Validity conditions of the TLV envelope exactly as the claim enumerates
them, plus the amendment: a 4-byte buffer (declared length 1) is also
rejected. -/
def TLVWellFormed (data : List Nat) : Prop :=
  3 ≤ data.length
  ∧ jsGet data 0 = 0x03
  ∧ jsGet data ((data.length : Int) - 1) = 0xFE
  ∧ (jsGet data 1 < 0xFF → data.length = jsGet data 1 + 3 ∧ data.length ≠ 4)
  ∧ (0xFF ≤ jsGet data 1 → jsGet data 1 = 0xFF ∧ 5 ≤ data.length
       ∧ data.length = ((jsGet data 2 <<< 8) ||| jsGet data 3) + 5)

/-- Value slice of a well-formed TLV buffer: after the 2-byte (short form)
or 4-byte (long form) header, up to but excluding the terminator. -/
def TLVValueSlice (data : List Nat) : List Nat :=
  if jsGet data 1 < 0xFF then jsSlice data 2 ((data.length : Int) - 1)
  else jsSlice data 4 ((data.length : Int) - 1)

/-- C4 (counterexample): the 4-byte buffer `[0x03, 0x01, 0x42, 0xFE]` passes
every check the claim lists (length ≥ 3, tag, terminator, total = 2 + 1 + 1),
yet `validateAndStripTLV` rejects it instead of returning `[0x42]`. -/
theorem c4_counterexample_four_byte_buffer :
    validateAndStripTLV [0x03, 0x01, 0x42, 0xFE] =
      .error "TLV structure is malformed: length field must be 1 or 3 bytes" := by
  decide

/-- C4 (amended): TLV unwrapping succeeds exactly on buffers satisfying the
claim's checks PLUS the amendment that a buffer of total length 4 (short
form with declared length 1) is also rejected; on success it returns the
value slice between the header and the terminator. -/
theorem c4_tlv_validation_characterized :
    (∀ (data result : List Nat), validateAndStripTLV data = .ok result →
      TLVWellFormed data ∧ result = TLVValueSlice data)
    ∧ (∀ data : List Nat, TLVWellFormed data →
      validateAndStripTLV data = .ok (TLVValueSlice data)) := by
  constructor
  · intro data result h
    unfold validateAndStripTLV at h
    simp only [] at h
    split at h
    · exact absurd h (by simp)
    next h1 =>
    split at h
    · exact absurd h (by simp)
    next h2 =>
    split at h
    · exact absurd h (by simp)
    next h3 =>
    split at h
    next e heq => exact absurd h (by simp)
    next len hsz heq =>
    rw [not_lt] at h1
    rw [not_not] at h2 h3
    by_cases hb : jsGet data 1 < 0xFF
    · -- short length form
      rw [if_pos hb] at heq
      have hlen : len = jsGet data 1 := by
        have := Except.ok.inj heq
        exact (Prod.mk.injEq _ _ _ _ ▸ this).1.symm
      have hhsz : hsz = 2 := by
        have := Except.ok.inj heq
        exact (Prod.mk.injEq _ _ _ _ ▸ this).2.symm
      subst hlen hhsz
      split at h
      · exact absurd h (by simp)
      next hEq =>
      rw [not_not] at hEq
      refine ⟨⟨h1, h2, h3, fun _ => ⟨by omega, ?_⟩, fun hc => absurd hb (by omega)⟩, ?_⟩
      · -- data.length ≠ 4
        split at h
        next hz => omega
        next hz =>
          split at h
          next h4 => exact absurd h (by simp)
          next h4 => exact h4
      · -- result = TLVValueSlice data
        unfold TLVValueSlice
        rw [if_pos hb]
        split at h
        next hz =>
          -- zero-length value: fresh empty array vs empty slice
          have hr : result = [] := (Except.ok.inj h).symm
          have h3len : data.length = 3 := by omega
          rw [hr, h3len]
          rw [show (((3 : Nat) : Int) - 1) = ((2 : Nat) : Int) by norm_num]
          push_cast
          rw [jsSlice_same data 2 (by norm_num) (by omega)]
        next hz =>
          split at h
          next h4 => exact absurd h (by simp)
          next h4 => exact (Except.ok.inj h).symm
    · -- long length form
      rw [if_neg hb] at heq
      by_cases hb2 : jsGet data 1 = 0xFF
      · rw [if_pos hb2] at heq
        split at heq
        next h5 => exact absurd heq (by simp)
        next h5 =>
        rw [not_lt] at h5
        have hlen : len = (jsGet data 2 <<< 8) ||| jsGet data 3 := by
          have := Except.ok.inj heq
          exact (Prod.mk.injEq _ _ _ _ ▸ this).1.symm
        have hhsz : hsz = 4 := by
          have := Except.ok.inj heq
          exact (Prod.mk.injEq _ _ _ _ ▸ this).2.symm
        subst hlen hhsz
        split at h
        · exact absurd h (by simp)
        next hEq =>
        rw [not_not] at hEq
        refine ⟨⟨h1, h2, h3, fun hc => absurd hc (by omega), fun _ => ⟨hb2, h5, by omega⟩⟩, ?_⟩
        unfold TLVValueSlice
        rw [if_neg hb]
        split at h
        next hz =>
          have hr : result = [] := (Except.ok.inj h).symm
          have h5len : data.length = 5 := by omega
          rw [hr, h5len]
          rw [show (((5 : Nat) : Int) - 1) = ((4 : Nat) : Int) by norm_num]
          push_cast
          rw [jsSlice_same data 4 (by norm_num) (by omega)]
        next hz =>
          split at h
          next h4 => omega
          next h4 => exact (Except.ok.inj h).symm
      · rw [if_neg hb2] at heq
        exact absurd heq (by simp)
  · intro data hWF
    obtain ⟨h1, h2, h3, hshort, hlong⟩ := hWF
    unfold validateAndStripTLV
    simp only []
    rw [if_neg (by omega), if_neg (by simp [h2]), if_neg (by simp [h3])]
    by_cases hb : jsGet data 1 < 0xFF
    · obtain ⟨hEq, h4⟩ := hshort hb
      rw [if_pos hb]
      dsimp only
      rw [if_neg (by omega : ¬ data.length ≠ 2 + jsGet data 1 + 1)]
      unfold TLVValueSlice
      rw [if_pos hb]
      by_cases hz : jsGet data 1 = 0
      · rw [if_pos hz]
        have h3len : data.length = 3 := by omega
        rw [h3len]
        rw [show (((3 : Nat) : Int) - 1) = ((2 : Nat) : Int) by norm_num]
        push_cast
        rw [jsSlice_same data 2 (by norm_num) (by omega)]
      · rw [if_neg hz, if_neg (by omega : ¬ data.length = 4)]
        norm_cast
    · obtain ⟨hFF, h5, hEq⟩ := hlong (by omega)
      rw [if_neg hb, if_pos hFF, if_neg (by omega : ¬ data.length < 5)]
      dsimp only
      rw [if_neg (by omega : ¬ data.length ≠ 4 + ((jsGet data 2 <<< 8) ||| jsGet data 3) + 1)]
      unfold TLVValueSlice
      rw [if_neg hb]
      by_cases hz : (jsGet data 2 <<< 8) ||| jsGet data 3 = 0
      · rw [if_pos hz]
        have h5len : data.length = 5 := by omega
        rw [h5len]
        rw [show (((5 : Nat) : Int) - 1) = ((4 : Nat) : Int) by norm_num]
        push_cast
        rw [jsSlice_same data 4 (by norm_num) (by omega)]
      · rw [if_neg hz, if_neg (by omega : ¬ data.length = 4)]
        norm_cast

/-- Witness for C4's amended theorem: the well-formed 5-byte buffer
`[0x03, 0x02, 0x09, 0x09, 0xFE]` unwraps to the value `[0x09, 0x09]`. -/
theorem c4_tlv_validation_characterized_witness :
    validateAndStripTLV [0x03, 0x02, 0x09, 0x09, 0xFE] =
      .ok (TLVValueSlice [0x03, 0x02, 0x09, 0x09, 0xFE]) :=
  c4_tlv_validation_characterized.2 _ (by constructor <;> decide)

/-- Heap of record sequences.  A JS `NDEFMessage` object owns a mutable
`records` array; object identity and in-place mutation are modelled by an
explicit store of sequences, a message being an index (reference) into it.
Each mutator returns the updated store together with the reference the
source's `return this` hands back; the store length only grows if a new
sequence (array) is ever allocated. -/
structure MessageStore where
  seqs : List (List ERecord)
deriving Repr

/-- The `records` array of message `m` (out-of-store references read as
empty, never reached under the theorems' validity hypothesis). -/
def msgRecords (st : MessageStore) (m : Nat) : List ERecord :=
  st.seqs.getD m []

/-- Mutator `addHead` of `src/message.ts`: `this.records.unshift(header);
return this`. -/
def msgAddHead (st : MessageStore) (m : Nat) (r : ERecord) : MessageStore × Nat :=
  (⟨st.seqs.set m (r :: msgRecords st m)⟩, m)

/-- Mutator `addTail` of `src/message.ts`: `this.records.push(tail);
return this`. -/
def msgAddTail (st : MessageStore) (m : Nat) (r : ERecord) : MessageStore × Nat :=
  (⟨st.seqs.set m (msgRecords st m ++ [r])⟩, m)

/-- Method `add` of `src/message.ts`: `return this.addTail(record)`. -/
def msgAdd (st : MessageStore) (m : Nat) (r : ERecord) : MessageStore × Nat :=
  msgAddTail st m r

/-- Mutator `removeHead` of `src/message.ts`: on an empty sequence return
`this` unchanged, else `this.records.shift(); return this`. -/
def msgRemoveHead (st : MessageStore) (m : Nat) : MessageStore × Nat :=
  if (msgRecords st m).length = 0 then (st, m)
  else (⟨st.seqs.set m (msgRecords st m).tail⟩, m)

/-- Mutator `removeTail` of `src/message.ts`: on an empty sequence return
`this` unchanged, else `this.records.pop(); return this`. -/
def msgRemoveTail (st : MessageStore) (m : Nat) : MessageStore × Nat :=
  if (msgRecords st m).length = 0 then (st, m)
  else (⟨st.seqs.set m (msgRecords st m).dropLast⟩, m)

/-- Method `remove` of `src/message.ts`: `return this.removeTail()`. -/
def msgRemove (st : MessageStore) (m : Nat) : MessageStore × Nat :=
  msgRemoveTail st m

lemma getD_set_self {α : Type} (l : List α) (n : Nat) (a d : α) (h : n < l.length) :
    (l.set n a).getD n d = a := by
  induction l generalizing n with
  | nil => simp at h
  | cons x xs ih =>
    cases n with
    | zero => rfl
    | succ k => exact ih k (by simpa using h)

lemma getD_set_ne {α : Type} (l : List α) (n k : Nat) (a d : α) (h : k ≠ n) :
    (l.set n a).getD k d = l.getD k d := by
  induction l generalizing n k with
  | nil => rfl
  | cons x xs ih =>
    cases n with
    | zero => cases k with
      | zero => exact absurd rfl h
      | succ j => rfl
    | succ n' => cases k with
      | zero => rfl
      | succ j => exact ih n' j (fun hc => h (by rw [hc]))

/-- C10: every mutator (`add`, `addHead`, `addTail`, `remove`, `removeHead`,
`removeTail`) mutates the receiving message's record sequence in place and
returns that same message reference: after `addTail` the original message
itself holds one more record ending in `r`, after `addHead` one more
starting with `r`, the remove mutators drop the first/last record and are
no-ops on an empty message, no other message's sequence changes, and no
mutator allocates an independent new sequence (the store never grows). -/
theorem c10_mutators_in_place (st : MessageStore) (m : Nat) (r : ERecord)
    (hm : m < st.seqs.length) :
    (msgAdd st m r = msgAddTail st m r ∧ msgRemove st m = msgRemoveTail st m)
    ∧ ((msgAddTail st m r).2 = m
        ∧ (msgAddTail st m r).1.seqs.length = st.seqs.length
        ∧ msgRecords (msgAddTail st m r).1 m = msgRecords st m ++ [r]
        ∧ ∀ k, k ≠ m → msgRecords (msgAddTail st m r).1 k = msgRecords st k)
    ∧ ((msgAddHead st m r).2 = m
        ∧ (msgAddHead st m r).1.seqs.length = st.seqs.length
        ∧ msgRecords (msgAddHead st m r).1 m = r :: msgRecords st m
        ∧ ∀ k, k ≠ m → msgRecords (msgAddHead st m r).1 k = msgRecords st k)
    ∧ ((msgRemoveHead st m).2 = m
        ∧ (msgRemoveHead st m).1.seqs.length = st.seqs.length
        ∧ msgRecords (msgRemoveHead st m).1 m = (msgRecords st m).tail
        ∧ (∀ k, k ≠ m → msgRecords (msgRemoveHead st m).1 k = msgRecords st k)
        ∧ (msgRecords st m = [] → msgRemoveHead st m = (st, m)))
    ∧ ((msgRemoveTail st m).2 = m
        ∧ (msgRemoveTail st m).1.seqs.length = st.seqs.length
        ∧ msgRecords (msgRemoveTail st m).1 m = (msgRecords st m).dropLast
        ∧ (∀ k, k ≠ m → msgRecords (msgRemoveTail st m).1 k = msgRecords st k)
        ∧ (msgRecords st m = [] → msgRemoveTail st m = (st, m))) := by
  refine ⟨⟨rfl, rfl⟩, ⟨rfl, ?_, ?_, ?_⟩, ⟨rfl, ?_, ?_, ?_⟩, ?_, ?_⟩
  · simp [msgAddTail]
  · exact getD_set_self _ _ _ _ hm
  · intro k hk
    exact getD_set_ne _ _ _ _ _ hk
  · simp [msgAddHead]
  · exact getD_set_self _ _ _ _ hm
  · intro k hk
    exact getD_set_ne _ _ _ _ _ hk
  · unfold msgRemoveHead
    by_cases hz : (msgRecords st m).length = 0
    · rw [if_pos hz]
      have he : msgRecords st m = [] := List.length_eq_zero.mp hz
      exact ⟨rfl, rfl, by rw [he]; rfl, fun k hk => rfl, fun _ => rfl⟩
    · rw [if_neg hz]
      refine ⟨rfl, by simp, getD_set_self _ _ _ _ hm, ?_, ?_⟩
      · intro k hk
        exact getD_set_ne _ _ _ _ _ hk
      · intro he
        exact absurd (by simp [he]) hz
  · unfold msgRemoveTail
    by_cases hz : (msgRecords st m).length = 0
    · rw [if_pos hz]
      have he : msgRecords st m = [] := List.length_eq_zero.mp hz
      exact ⟨rfl, rfl, by rw [he]; rfl, fun k hk => rfl, fun _ => rfl⟩
    · rw [if_neg hz]
      refine ⟨rfl, by simp, getD_set_self _ _ _ _ hm, ?_, ?_⟩
      · intro k hk
        exact getD_set_ne _ _ _ _ _ hk
      · intro he
        exact absurd (by simp [he]) hz

/-- Witness for C10 on a one-message store: `addTail` appends to the
receiver's own sequence. -/
theorem c10_mutators_in_place_witness :
    msgRecords
        (msgAddTail
          { seqs := [[{ tnf := .media, rawType := mediaTextPlainBytes,
                        rawId := none, rawPayload := [72] }]] }
          0
          { tnf := .wellKnown, rawType := uTypeBytes, rawId := none,
            rawPayload := [1] }).1 0 =
      msgRecords
          { seqs := [[{ tnf := .media, rawType := mediaTextPlainBytes,
                        rawId := none, rawPayload := [72] }]] } 0
        ++ [{ tnf := .wellKnown, rawType := uTypeBytes, rawId := none,
              rawPayload := [1] }] :=
  (c10_mutators_in_place _ 0 _ (by decide)).2.1.2.2.1

lemma getD_drop_add {α : Type} (l : List α) (o k : Nat) (d : α) :
    (l.drop o).getD k d = l.getD (o + k) d := by
  induction l generalizing o with
  | nil => simp [List.getD]
  | cons x xs ih =>
    cases o with
    | zero => simp
    | succ o' => simp [List.drop_succ_cons, Nat.succ_add, ih o']

lemma getD_append_lt {α : Type} (l l' : List α) (k : Nat) (d : α) (hk : k < l.length) :
    (l ++ l').getD k d = l.getD k d := by
  induction l generalizing k with
  | nil => simp at hk
  | cons x xs ih =>
    cases k with
    | zero => rfl
    | succ k' => exact ih k' (by simpa using hk)

lemma jsGet_drop (l : List Nat) (o : Nat) (k : Int) (hk : 0 ≤ k) :
    jsGet (l.drop o) k = jsGet l ((o : Int) + k) := by
  unfold jsGet
  rw [if_neg (by omega), if_neg (by omega)]
  have h1 : ((o : Int) + k).toNat = o + k.toNat := by omega
  rw [h1, getD_drop_add]

lemma jsGet_append_lt (l l' : List Nat) (k : Int) (hk : k < (l.length : Int)) :
    jsGet (l ++ l') k = jsGet l k := by
  unfold jsGet
  by_cases hneg : k < 0
  · rw [if_pos hneg, if_pos hneg]
  · rw [if_neg hneg, if_neg hneg]
    exact getD_append_lt l l' k.toNat 0 (by omega)

lemma jsSlice_drop (l : List Nat) (o : Nat) (a b : Int) (ha : 0 ≤ a) (hb : 0 ≤ b)
    (ho : o ≤ l.length) :
    jsSlice (l.drop o) a b = jsSlice l ((o : Int) + a) ((o : Int) + b) := by
  simp only [jsSlice]
  rw [if_neg (by omega : ¬ a < 0)]
  rw [if_neg (by omega : ¬ b < 0)]
  rw [if_neg (by omega : ¬ (o : Int) + a < 0)]
  rw [if_neg (by omega : ¬ (o : Int) + b < 0)]
  have hlen : (((l.drop o).length : Nat) : Int) = (l.length : Int) - o := by
    simp [List.length_drop]
    omega
  rw [hlen]
  have hs : (min ((o : Int) + a) (l.length : Int)).toNat
      = o + (min a ((l.length : Int) - o)).toNat := by omega
  have he : (min ((o : Int) + b) (l.length : Int)).toNat
      = o + (min b ((l.length : Int) - o)).toNat := by omega
  rw [hs, he]
  generalize (min a ((l.length : Int) - o)).toNat = s'
  generalize (min b ((l.length : Int) - o)).toNat = e'
  rw [List.drop_take e' s' (l.drop o), List.drop_take (o + e') (o + s') l]
  have h1 : o + e' - (o + s') = e' - s' := by omega
  rw [List.drop_drop, h1]

lemma jsSlice_append_of_le (l l' : List Nat) (a b : Int) (ha : 0 ≤ a) (hab : a ≤ b)
    (hb : b ≤ (l.length : Int)) :
    jsSlice (l ++ l') a b = jsSlice l a b := by
  simp only [jsSlice]
  rw [if_neg (by omega : ¬ a < 0)]
  rw [if_neg (by omega : ¬ b < 0)]
  rw [if_neg (by omega : ¬ a < 0)]
  rw [if_neg (by omega : ¬ b < 0)]
  have hlen : (((l ++ l').length : Nat) : Int) = (l.length : Int) + l'.length := by
    simp [List.length_append]
  rw [hlen]
  have hs : min a ((l.length : Int) + l'.length) = min a (l.length : Int) := by omega
  have he : min b ((l.length : Int) + l'.length) = min b (l.length : Int) := by omega
  rw [hs, he]
  have he2 : (min b (l.length : Int)).toNat ≤ l.length := by omega
  rw [List.take_append_of_le_length he2]

lemma getD_append_add {α : Type} (l l' : List α) (k : Nat) (d : α) :
    (l ++ l').getD (l.length + k) d = l'.getD k d := by
  induction l with
  | nil => simp
  | cons x xs ih => simpa [Nat.succ_add] using ih

lemma extract_middle (pre mid rest : List Nat) :
    ((pre ++ (mid ++ rest)).take (pre.length + mid.length)).drop pre.length = mid := by
  rw [List.take_append, List.drop_left, List.take_left]

lemma jsGet_pre_add (pre l : List Nat) (k : Nat) :
    jsGet (pre ++ l) ((pre.length : Int) + (k : Int)) = l.getD k 0 := by
  rw [show ((pre.length : Int) + (k : Int)) = ((pre.length + k : Nat) : Int) by push_cast; ring]
  rw [jsGet_coe, getD_append_add]

lemma jsSlice_pre_mid (pre mid rest : List Nat) :
    jsSlice (pre ++ (mid ++ rest)) ((pre.length : Nat) : Int)
      ((pre.length + mid.length : Nat) : Int) = mid := by
  rw [jsSlice_coe _ _ _ (by simp) (by simp [List.length_append])]
  exact extract_middle pre mid rest

lemma jsGet_pre_zero (pre l : List Nat) :
    jsGet (pre ++ l) ((pre.length : Nat) : Int) = l.getD 0 0 := by
  simpa using jsGet_pre_add pre l 0

lemma jsGet_pre_one (pre l : List Nat) :
    jsGet (pre ++ l) ((pre.length : Int) + 1) = l.getD 1 0 := by
  simpa using jsGet_pre_add pre l 1

lemma jsGet_pre_two (pre l : List Nat) :
    jsGet (pre ++ l) ((pre.length : Int) + 1 + 1) = l.getD 2 0 := by
  have h := jsGet_pre_add pre l 2
  rw [show ((pre.length : Int) + ((2 : Nat) : Int)) = (pre.length : Int) + 1 + 1 by push_cast; ring] at h
  exact h

lemma jsGet_pre_three (pre l : List Nat) :
    jsGet (pre ++ l) ((pre.length : Int) + 1 + 1 + 1) = l.getD 3 0 := by
  have h := jsGet_pre_add pre l 3
  rw [show ((pre.length : Int) + ((3 : Nat) : Int)) = (pre.length : Int) + 1 + 1 + 1 by push_cast; ring] at h
  exact h

lemma parseNDEFRecord_of_encoded (r : ERecord) (mb me : Bool) (enc pre post : List Nat)
    (henc : constructBytesFromRecordInfo ⟨r, mb, me⟩ = .ok enc)
    (hshort : r.rawPayload.length < 256) :
    parseNDEFRecord (pre ++ (enc ++ post)) ((pre.length : Nat) : Int) =
      (createNDEFRecordFromRawData r.tnf r.rawType r.rawPayload r.rawId).map
        (fun rec => { record := rec, nextOffset := ((pre.length + enc.length : Nat) : Int),
                      isMessageEnd := me }) := by
  unfold constructBytesFromRecordInfo at henc
  dsimp only at henc
  split at henc
  · exact absurd henc (by simp)
  next hp =>
  split at henc
  · exact absurd henc (by simp)
  next ht =>
  split at henc
  · exact absurd henc (by simp)
  next hid =>
  simp only [hshort, decide_True, if_true] at henc
  have hty : r.rawType.length % 256 = r.rawType.length := Nat.mod_eq_of_lt (by omega)
  have hpay : r.rawPayload.length % 256 = r.rawPayload.length := Nat.mod_eq_of_lt (by omega)
  rw [hty, hpay] at henc
  cases hi : r.rawId with
  | none =>
    rw [hi] at henc
    simp only [Option.isSome_none, Option.getD_none] at henc
    have hencv : enc = constructHeaderByte
        { tnfCode := TNFLookup r.tnf, isBeginning := mb, isEnd := me, isIdPresent := false,
          isShortRecord := true, isChunked := false }
        :: r.rawType.length :: r.rawPayload.length :: (r.rawType ++ r.rawPayload) := by
      rw [← Except.ok.inj henc]
      simp
    have hlenc : enc.length = 3 + (r.rawType.length + r.rawPayload.length) := by
      rw [hencv]; simp only [List.length_cons, List.length_append]; omega
    rw [hencv]
    unfold parseNDEFRecord
    rw [List.cons_append, List.cons_append, List.cons_append, List.append_assoc]
    rw [if_neg (by simp; omega)]
    rw [jsGet_pre_zero, List.getD_cons_zero]
    rw [parse_constructHeaderByte r.tnf mb me false true]
    dsimp only
    simp only [reduceIte]
    rw [if_neg (by simp; omega)]
    rw [jsGet_pre_one, List.getD_cons_succ, List.getD_cons_zero]
    rw [if_neg (by simp; omega)]
    rw [jsGet_pre_two]
    simp only [List.getD_cons_succ, List.getD_cons_zero]
    simp only [Bool.false_eq_true, if_false]
    rw [if_neg (by simp; omega)]
    rw [if_neg (by simp; omega)]
    have hassoc : pre ++ (constructHeaderByte
          { tnfCode := TNFLookup r.tnf, isBeginning := mb, isEnd := me, isIdPresent := false,
            isShortRecord := true, isChunked := false }
          :: r.rawType.length :: r.rawPayload.length :: (r.rawType ++ (r.rawPayload ++ post)))
        = (pre ++ [constructHeaderByte
          { tnfCode := TNFLookup r.tnf, isBeginning := mb, isEnd := me, isIdPresent := false,
            isShortRecord := true, isChunked := false }, r.rawType.length, r.rawPayload.length])
          ++ (r.rawType ++ (r.rawPayload ++ post)) := by
      simp
    have s1 : jsSlice (pre ++ (constructHeaderByte
          { tnfCode := TNFLookup r.tnf, isBeginning := mb, isEnd := me, isIdPresent := false,
            isShortRecord := true, isChunked := false }
          :: r.rawType.length :: r.rawPayload.length :: (r.rawType ++ (r.rawPayload ++ post))))
        ((pre.length : Int) + 1 + 1 + 1)
        ((pre.length : Int) + 1 + 1 + 1 + (r.rawType.length : Int)) = r.rawType := by
      rw [hassoc]
      rw [show ((pre.length : Int) + 1 + 1 + 1 + (r.rawType.length : Int))
          = (((pre ++ [constructHeaderByte
              { tnfCode := TNFLookup r.tnf, isBeginning := mb, isEnd := me, isIdPresent := false,
                isShortRecord := true, isChunked := false }, r.rawType.length,
              r.rawPayload.length]).length + r.rawType.length : Nat) : Int) by simp; ring]
      rw [show ((pre.length : Int) + 1 + 1 + 1)
          = (((pre ++ [constructHeaderByte
              { tnfCode := TNFLookup r.tnf, isBeginning := mb, isEnd := me, isIdPresent := false,
                isShortRecord := true, isChunked := false }, r.rawType.length,
              r.rawPayload.length]).length : Nat) : Int) by simp; ring]
      exact jsSlice_pre_mid _ _ _
    have hassoc2 : pre ++ (constructHeaderByte
          { tnfCode := TNFLookup r.tnf, isBeginning := mb, isEnd := me, isIdPresent := false,
            isShortRecord := true, isChunked := false }
          :: r.rawType.length :: r.rawPayload.length :: (r.rawType ++ (r.rawPayload ++ post)))
        = (pre ++ [constructHeaderByte
          { tnfCode := TNFLookup r.tnf, isBeginning := mb, isEnd := me, isIdPresent := false,
            isShortRecord := true, isChunked := false }, r.rawType.length, r.rawPayload.length] ++ r.rawType)
          ++ (r.rawPayload ++ post) := by
      simp
    have s2 : jsSlice (pre ++ (constructHeaderByte
          { tnfCode := TNFLookup r.tnf, isBeginning := mb, isEnd := me, isIdPresent := false,
            isShortRecord := true, isChunked := false }
          :: r.rawType.length :: r.rawPayload.length :: (r.rawType ++ (r.rawPayload ++ post))))
        ((pre.length : Int) + 1 + 1 + 1 + (r.rawType.length : Int))
        ((pre.length : Int) + 1 + 1 + 1 + (r.rawType.length : Int) + (r.rawPayload.length : Int))
        = r.rawPayload := by
      rw [hassoc2]
      rw [show ((pre.length : Int) + 1 + 1 + 1 + (r.rawType.length : Int) + (r.rawPayload.length : Int))
          = (((pre ++ [constructHeaderByte
          { tnfCode := TNFLookup r.tnf, isBeginning := mb, isEnd := me, isIdPresent := false,
            isShortRecord := true, isChunked := false }, r.rawType.length, r.rawPayload.length] ++ r.rawType).length
              + r.rawPayload.length : Nat) : Int) by simp; ring]
      rw [show ((pre.length : Int) + 1 + 1 + 1 + (r.rawType.length : Int))
          = (((pre ++ [constructHeaderByte
          { tnfCode := TNFLookup r.tnf, isBeginning := mb, isEnd := me, isIdPresent := false,
            isShortRecord := true, isChunked := false }, r.rawType.length, r.rawPayload.length] ++ r.rawType).length : Nat) : Int) by
            simp; ring]
      exact jsSlice_pre_mid _ _ _
    rw [s1, s2]
    cases hd : createNDEFRecordFromRawData r.tnf r.rawType r.rawPayload none with
    | error e => rfl
    | ok record =>
      simp only [Except.map]
      congr 1
      simp only [ParsedNDEFRecordResult.mk.injEq, List.length_cons, List.length_append]
      refine ⟨trivial, by push_cast; ring, trivial⟩
  | some i =>
    rw [hi] at henc hid
    simp only [Option.any_some, decide_eq_true_eq, not_lt] at hid
    have hil : i.length % 256 = i.length := Nat.mod_eq_of_lt (by omega)
    simp only [Option.isSome_some, Option.getD_some] at henc
    rw [hil] at henc
    have hencv : enc = constructHeaderByte
        { tnfCode := TNFLookup r.tnf, isBeginning := mb, isEnd := me, isIdPresent := true,
          isShortRecord := true, isChunked := false }
        :: r.rawType.length :: r.rawPayload.length :: i.length
        :: (r.rawType ++ (i ++ r.rawPayload)) := by
      rw [← Except.ok.inj henc]
      simp
    have hlenc : enc.length = 4 + (r.rawType.length + (i.length + r.rawPayload.length)) := by
      rw [hencv]; simp only [List.length_cons, List.length_append]; omega
    rw [hencv]
    unfold parseNDEFRecord
    rw [List.cons_append, List.cons_append, List.cons_append, List.cons_append,
      List.append_assoc]
    rw [if_neg (by simp; omega)]
    rw [jsGet_pre_zero, List.getD_cons_zero]
    rw [parse_constructHeaderByte r.tnf mb me true true]
    dsimp only
    simp only [reduceIte]
    rw [if_neg (by simp; omega)]
    rw [jsGet_pre_one, List.getD_cons_succ, List.getD_cons_zero]
    rw [if_neg (by simp; omega)]
    rw [jsGet_pre_two]
    simp only [List.getD_cons_succ, List.getD_cons_zero]
    rw [if_neg (by simp; omega)]
    rw [jsGet_pre_three]
    simp only [List.getD_cons_succ, List.getD_cons_zero]
    rw [if_neg (by simp; omega)]
    have s1 : jsSlice (pre ++ (constructHeaderByte
        { tnfCode := TNFLookup r.tnf, isBeginning := mb, isEnd := me, isIdPresent := true,
          isShortRecord := true, isChunked := false }
        :: r.rawType.length :: r.rawPayload.length :: i.length :: (r.rawType ++ (i ++ r.rawPayload ++ post))))
        ((pre.length : Int) + 1 + 1 + 1 + 1)
        ((pre.length : Int) + 1 + 1 + 1 + 1 + (r.rawType.length : Int)) = r.rawType := by
      rw [show pre ++ (constructHeaderByte
        { tnfCode := TNFLookup r.tnf, isBeginning := mb, isEnd := me, isIdPresent := true,
          isShortRecord := true, isChunked := false }
        :: r.rawType.length :: r.rawPayload.length :: i.length :: (r.rawType ++ (i ++ r.rawPayload ++ post))) = (pre ++ [constructHeaderByte
        { tnfCode := TNFLookup r.tnf, isBeginning := mb, isEnd := me, isIdPresent := true,
          isShortRecord := true, isChunked := false }, r.rawType.length, r.rawPayload.length, i.length]) ++ (r.rawType ++ (i ++ (r.rawPayload ++ post))) by simp]
      rw [show ((pre.length : Int) + 1 + 1 + 1 + 1 + (r.rawType.length : Int))
          = (((pre ++ [constructHeaderByte
        { tnfCode := TNFLookup r.tnf, isBeginning := mb, isEnd := me, isIdPresent := true,
          isShortRecord := true, isChunked := false }, r.rawType.length, r.rawPayload.length, i.length]).length + r.rawType.length : Nat) : Int) by simp; ring]
      rw [show ((pre.length : Int) + 1 + 1 + 1 + 1)
          = (((pre ++ [constructHeaderByte
        { tnfCode := TNFLookup r.tnf, isBeginning := mb, isEnd := me, isIdPresent := true,
          isShortRecord := true, isChunked := false }, r.rawType.length, r.rawPayload.length, i.length]).length : Nat) : Int) by simp; ring]
      exact jsSlice_pre_mid _ _ _
    have sid : jsSlice (pre ++ (constructHeaderByte
        { tnfCode := TNFLookup r.tnf, isBeginning := mb, isEnd := me, isIdPresent := true,
          isShortRecord := true, isChunked := false }
        :: r.rawType.length :: r.rawPayload.length :: i.length :: (r.rawType ++ (i ++ r.rawPayload ++ post))))
        ((pre.length : Int) + 1 + 1 + 1 + 1 + (r.rawType.length : Int))
        ((pre.length : Int) + 1 + 1 + 1 + 1 + (r.rawType.length : Int) + (i.length : Int)) = i := by
      rw [show pre ++ (constructHeaderByte
        { tnfCode := TNFLookup r.tnf, isBeginning := mb, isEnd := me, isIdPresent := true,
          isShortRecord := true, isChunked := false }
        :: r.rawType.length :: r.rawPayload.length :: i.length :: (r.rawType ++ (i ++ r.rawPayload ++ post))) = ((pre ++ [constructHeaderByte
        { tnfCode := TNFLookup r.tnf, isBeginning := mb, isEnd := me, isIdPresent := true,
          isShortRecord := true, isChunked := false }, r.rawType.length, r.rawPayload.length, i.length]) ++ r.rawType) ++ (i ++ (r.rawPayload ++ post)) by simp]
      rw [show ((pre.length : Int) + 1 + 1 + 1 + 1 + (r.rawType.length : Int) + (i.length : Int))
          = ((((pre ++ [constructHeaderByte
        { tnfCode := TNFLookup r.tnf, isBeginning := mb, isEnd := me, isIdPresent := true,
          isShortRecord := true, isChunked := false }, r.rawType.length, r.rawPayload.length, i.length]) ++ r.rawType).length + i.length : Nat) : Int) by simp; ring]
      rw [show ((pre.length : Int) + 1 + 1 + 1 + 1 + (r.rawType.length : Int))
          = ((((pre ++ [constructHeaderByte
        { tnfCode := TNFLookup r.tnf, isBeginning := mb, isEnd := me, isIdPresent := true,
          isShortRecord := true, isChunked := false }, r.rawType.length, r.rawPayload.length, i.length]) ++ r.rawType).length : Nat) : Int) by simp; ring]
      exact jsSlice_pre_mid _ _ _
    have s2 : jsSlice (pre ++ (constructHeaderByte
        { tnfCode := TNFLookup r.tnf, isBeginning := mb, isEnd := me, isIdPresent := true,
          isShortRecord := true, isChunked := false }
        :: r.rawType.length :: r.rawPayload.length :: i.length :: (r.rawType ++ (i ++ r.rawPayload ++ post))))
        ((pre.length : Int) + 1 + 1 + 1 + 1 + (r.rawType.length : Int) + (i.length : Int))
        ((pre.length : Int) + 1 + 1 + 1 + 1 + (r.rawType.length : Int) + (i.length : Int)
          + (r.rawPayload.length : Int)) = r.rawPayload := by
      rw [show pre ++ (constructHeaderByte
        { tnfCode := TNFLookup r.tnf, isBeginning := mb, isEnd := me, isIdPresent := true,
          isShortRecord := true, isChunked := false }
        :: r.rawType.length :: r.rawPayload.length :: i.length :: (r.rawType ++ (i ++ r.rawPayload ++ post))) = ((pre ++ [constructHeaderByte
        { tnfCode := TNFLookup r.tnf, isBeginning := mb, isEnd := me, isIdPresent := true,
          isShortRecord := true, isChunked := false }, r.rawType.length, r.rawPayload.length, i.length]) ++ r.rawType ++ i) ++ (r.rawPayload ++ post) by simp]
      rw [show ((pre.length : Int) + 1 + 1 + 1 + 1 + (r.rawType.length : Int) + (i.length : Int)
            + (r.rawPayload.length : Int))
          = ((((pre ++ [constructHeaderByte
        { tnfCode := TNFLookup r.tnf, isBeginning := mb, isEnd := me, isIdPresent := true,
          isShortRecord := true, isChunked := false }, r.rawType.length, r.rawPayload.length, i.length]) ++ r.rawType ++ i).length + r.rawPayload.length : Nat) : Int) by simp; ring]
      rw [show ((pre.length : Int) + 1 + 1 + 1 + 1 + (r.rawType.length : Int) + (i.length : Int))
          = ((((pre ++ [constructHeaderByte
        { tnfCode := TNFLookup r.tnf, isBeginning := mb, isEnd := me, isIdPresent := true,
          isShortRecord := true, isChunked := false }, r.rawType.length, r.rawPayload.length, i.length]) ++ r.rawType ++ i).length : Nat) : Int) by simp; ring]
      exact jsSlice_pre_mid _ _ _
    rw [if_neg (by simp; omega)]
    dsimp only
    rw [if_neg (by simp; omega)]
    rw [s1, sid, s2]
    cases hd : createNDEFRecordFromRawData r.tnf r.rawType r.rawPayload (some i) with
    | error e => rfl
    | ok record =>
      simp only [Except.map]
      congr 1
      simp only [ParsedNDEFRecordResult.mk.injEq, List.length_cons, List.length_append]
      refine ⟨trivial, by push_cast; ring, trivial⟩

lemma encoded_length_lb (r : ERecord) (mb me : Bool) (enc : List Nat)
    (henc : constructBytesFromRecordInfo { record := r, isBeginning := mb, isEnd := me } = .ok enc) :
    3 + r.rawPayload.length ≤ enc.length := by
  unfold constructBytesFromRecordInfo at henc
  dsimp only at henc
  split at henc
  · exact absurd henc (by simp)
  split at henc
  · exact absurd henc (by simp)
  split at henc
  · exact absurd henc (by simp)
  rw [← Except.ok.inj henc]
  by_cases hs : r.rawPayload.length < 256 <;>
    cases r.rawId <;>
      simp [hs, List.length_append] <;> omega

lemma exceptMapM_cons {α β : Type} (f : α → Except String β) (a : α) (l : List α) :
    (a :: l).mapM f = (match f a with
      | .error e => .error e
      | .ok b => match l.mapM f with
        | .error e => .error e
        | .ok bs => .ok (b :: bs)) := by
  rw [← List.mapM'_eq_mapM, ← List.mapM'_eq_mapM]
  show (do let b ← f a; let bs ← l.mapM' f; pure (b :: bs)) = _
  cases f a with
  | error e => rfl
  | ok b =>
    show (do let bs ← l.mapM' f; pure (b :: bs)) = _
    cases l.mapM' f with
    | error e => rfl
    | ok bs => rfl

lemma parseLoopF_of_encoded (ps : List (RecordInfo × List Nat)) :
    ∀ (recs : List PRecord) (consumed : List Nat) (fuel : Nat),
      ps ≠ [] →
      (∀ p ∈ ps, constructBytesFromRecordInfo p.1 = .ok p.2) →
      (∀ p ∈ ps, p.1.record.rawPayload.length < 256) →
      ps.mapM (fun p => createNDEFRecordFromRawData p.1.record.tnf p.1.record.rawType
          p.1.record.rawPayload p.1.record.rawId) = .ok recs →
      (∀ p ∈ ps.dropLast, p.1.isEnd = false) →
      (∀ p ∈ ps.getLast?, p.1.isEnd = true) →
      ps.length ≤ fuel →
      parseLoopF (consumed ++ (ps.map Prod.snd).flatten) fuel ((consumed.length : Nat) : Int) =
        .ok recs := by
  induction ps with
  | nil => exact fun recs consumed fuel hne => absurd rfl hne
  | cons p ps' ih =>
    intro recs consumed fuel _ henc hshort hdisp hmid hlast hfuel
    have hencp := henc p (List.mem_cons_self _ _)
    have hlb := encoded_length_lb p.1.record p.1.isBeginning p.1.isEnd p.2 hencp
    cases fuel with
    | zero => simp at hfuel
    | succ f =>
      have hflat : (((p :: ps').map Prod.snd).flatten : List Nat)
          = p.2 ++ (ps'.map Prod.snd).flatten := by simp
      rw [hflat]
      have hparse := parseNDEFRecord_of_encoded p.1.record p.1.isBeginning p.1.isEnd p.2
          consumed ((ps'.map Prod.snd).flatten) hencp (hshort p (List.mem_cons_self _ _))
      rw [exceptMapM_cons] at hdisp
      cases hfp : createNDEFRecordFromRawData p.1.record.tnf p.1.record.rawType
          p.1.record.rawPayload p.1.record.rawId with
      | error e => rw [hfp] at hdisp; exact absurd hdisp (by simp)
      | ok rec1 =>
        rw [hfp] at hdisp
        cases hrest : ps'.mapM (fun p => createNDEFRecordFromRawData p.1.record.tnf
            p.1.record.rawType p.1.record.rawPayload p.1.record.rawId) with
        | error e => rw [hrest] at hdisp; exact absurd hdisp (by simp)
        | ok recs' =>
          rw [hrest] at hdisp
          dsimp only at hdisp
          have hrecs : recs = rec1 :: recs' := (Except.ok.inj hdisp).symm
          subst hrecs
          rw [hfp] at hparse
          unfold parseLoopF
          have hlen : ((consumed.length : Nat) : Int)
              < (((consumed ++ (p.2 ++ (ps'.map Prod.snd).flatten)).length : Nat) : Int) := by
            simp only [List.length_append]
            push_cast
            omega
          rw [if_pos hlen]
          dsimp only
          rw [hparse]
          dsimp only [Except.map]
          cases ps' with
          | nil =>
            have hend : p.1.isEnd = true := hlast p rfl
            rw [hend]
            simp only [reduceIte]
            have h0 : recs' = [] := by injection hrest with h; exact h.symm
            subst h0
            rfl
          | cons q ps'' =>
            have hendf : p.1.isEnd = false := hmid p (List.mem_cons_self _ _)
            rw [hendf]
            simp only [Bool.false_eq_true, if_false]
            have hassoc : consumed ++ (p.2 ++ ((q :: ps'').map Prod.snd).flatten)
                = (consumed ++ p.2) ++ ((q :: ps'').map Prod.snd).flatten := by
              simp
            have hoff : ((consumed.length + p.2.length : Nat) : Int)
                = (((consumed ++ p.2).length : Nat) : Int) := by simp
            rw [hassoc, hoff]
            rw [ih recs' (consumed ++ p.2) f (by simp)
              (fun q hq => henc q (List.mem_cons_of_mem _ hq))
              (fun q hq => hshort q (List.mem_cons_of_mem _ hq))
              hrest
              (fun q hq => hmid q (List.mem_cons_of_mem _ hq))
              hlast
              (by simp at hfuel ⊢; omega)]

lemma mapM_ok_length {α β : Type} (f : α → Except String β) :
    ∀ (l : List α) (out : List β), l.mapM f = .ok out → l.length = out.length := by
  intro l
  induction l with
  | nil =>
    intro out h
    have h0 : ([] : List β) = out := by injection h with h'
    rw [← h0]
    rfl
  | cons a l ih =>
    intro out h
    rw [exceptMapM_cons] at h
    cases hfa : f a with
    | error e => rw [hfa] at h; exact absurd h (by simp)
    | ok b =>
      rw [hfa] at h
      cases hl : l.mapM f with
      | error e => rw [hl] at h; exact absurd h (by simp)
      | ok bs =>
        rw [hl] at h
        dsimp only at h
        rw [← Except.ok.inj h]
        simp [ih bs hl]

lemma mapM_ok_zip_forall {α β : Type} (f : α → Except String β) :
    ∀ (l : List α) (out : List β), l.mapM f = .ok out →
      ∀ p ∈ l.zip out, f p.1 = .ok p.2 := by
  intro l
  induction l with
  | nil => intro out h p hp; simp at hp
  | cons a l ih =>
    intro out h p hp
    rw [exceptMapM_cons] at h
    cases hfa : f a with
    | error e => rw [hfa] at h; exact absurd h (by simp)
    | ok b =>
      rw [hfa] at h
      cases hl : l.mapM f with
      | error e => rw [hl] at h; exact absurd h (by simp)
      | ok bs =>
        rw [hl] at h
        dsimp only at h
        rw [← Except.ok.inj h] at hp
        rw [List.zip_cons_cons] at hp
        cases hp with
        | head => exact hfa
        | tail _ hmem => exact ih bs hl p hmem

lemma mapM_ok_getElem {α β : Type} (f : α → Except String β) (l : List α)
    (out : List β) (h : l.mapM f = .ok out) (i : Nat) (h1 : i < l.length)
    (h2 : i < out.length) : f (l[i]) = .ok (out[i]) := by
  have hlen := mapM_ok_length f l out h
  have hiz : i < (l.zip out).length := by rw [List.length_zip]; omega
  have hmem : (l[i], out[i]) ∈ l.zip out := by
    have hz : (l.zip out)[i] = (l[i], out[i]) := List.getElem_zip
    rw [← hz]
    exact List.getElem_mem hiz
  exact mapM_ok_zip_forall f l out h _ hmem

lemma mapM_ok_of_all {α β : Type} (f : α → Except String β) :
    ∀ l : List α, (∀ a ∈ l, ∃ b, f a = .ok b) → ∃ out, l.mapM f = .ok out := by
  intro l
  induction l with
  | nil => exact fun _ => ⟨[], rfl⟩
  | cons a l ih =>
    intro h
    obtain ⟨b, hb⟩ := h a (List.mem_cons_self _ _)
    obtain ⟨out, hout⟩ := ih (fun a ha => h a (List.mem_cons_of_mem _ ha))
    refine ⟨b :: out, ?_⟩
    rw [exceptMapM_cons, hb, hout]

lemma mapM_ext_of_getElem {α β γ : Type} (F : α → Except String γ)
    (G : β → Except String γ) :
    ∀ (l₁ : List α) (l₂ : List β), l₁.length = l₂.length →
      (∀ i (h₁ : i < l₁.length) (h₂ : i < l₂.length), F (l₁[i]) = G (l₂[i])) →
      l₁.mapM F = l₂.mapM G := by
  intro l₁
  induction l₁ with
  | nil =>
    intro l₂ h _
    cases l₂ with
    | nil => rfl
    | cons b l => simp at h
  | cons a l ih =>
    intro l₂ h hptw
    cases l₂ with
    | nil => simp at h
    | cons b l₂' =>
      rw [exceptMapM_cons, exceptMapM_cons]
      have h0 := hptw 0 (by simp) (by simp)
      simp only [List.getElem_cons_zero] at h0
      rw [h0]
      rw [ih l₂' (by simpa using h)
        (fun i h₁ h₂ => by simpa using hptw (i + 1) (by simpa using h₁) (by simpa using h₂))]

lemma length_le_flatten_length (parts : List (List Nat))
    (h : ∀ x ∈ parts, 1 ≤ x.length) : parts.length ≤ parts.flatten.length := by
  induction parts with
  | nil => simp
  | cons x xs ih =>
    simp only [List.flatten_cons, List.length_cons, List.length_append]
    have h1 := h x (List.mem_cons_self _ _)
    have h2 := ih (fun y hy => h y (List.mem_cons_of_mem _ hy))
    omega

lemma lookup_none_of_all_lt {c : Nat} :
    ∀ (ps : List (Nat × List Nat)), (∀ e ∈ ps, e.1 ≤ 0x23) → 0x23 < c →
      ps.lookup c = none := by
  intro ps
  induction ps with
  | nil => intro _ _; rfl
  | cons e ps ih =>
    intro h hc
    have he := h e (List.mem_cons_self _ _)
    rw [List.lookup_cons]
    have hne : (c == e.1) = false := beq_false_of_ne (by omega)
    rw [hne]
    exact ih (fun x hx => h x (List.mem_cons_of_mem _ hx)) hc

lemma constructBytes_ok_shape (infos : List RecordInfo) (bytes : List Nat)
    (hne : infos ≠ []) (h : constructBytes infos = .ok bytes) :
    ∃ parts, infos.mapM constructBytesFromRecordInfo = .ok parts
      ∧ parts.flatten.length ≤ 0xFE
      ∧ bytes = 3 :: parts.flatten.length :: (parts.flatten ++ [0xFE]) := by
  unfold constructBytes at h
  rw [if_neg (by simpa using hne)] at h
  cases hm : infos.mapM constructBytesFromRecordInfo with
  | error e => rw [hm] at h; exact absurd h (by simp)
  | ok parts =>
    rw [hm] at h
    dsimp only at h
    refine ⟨parts, rfl, ?_⟩
    split at h
    · exact absurd h (by simp)
    split at h
    · exact absurd h (by simp)
    split at h
    · exact absurd h (by simp)
    split at h
    · exact absurd h (by simp)
    by_cases hlen : 0xFE < parts.flatten.length
    · rw [if_pos hlen] at h
      exact absurd h (by simp)
    · rw [if_neg hlen] at h
      refine ⟨by omega, ?_⟩
      rw [← Except.ok.inj h]
      rw [Nat.mod_eq_of_lt (by omega)]
      rfl

lemma strip_noop (mid : List Nat) :
    stripLeadingTrailingZeros (3 :: (mid ++ [0xFE])) = 3 :: (mid ++ [0xFE]) := by
  unfold stripLeadingTrailingZeros
  rw [List.dropWhile_cons, if_neg (by decide)]
  rw [show (3 :: (mid ++ [0xFE])).reverse = 0xFE :: (mid.reverse ++ [3]) by simp]
  rw [List.dropWhile_cons, if_neg (by decide)]
  rw [show (0xFE :: (mid.reverse ++ [3])).reverse = 3 :: (mid ++ [0xFE]) by simp]

lemma validateAndStripTLV_of_wrapped (val : List Nat)
    (h3 : 3 ≤ val.length) (h254 : val.length ≤ 0xFE) :
    validateAndStripTLV ((3 :: val.length :: val) ++ [0xFE]) = .ok val := by
  unfold validateAndStripTLV
  have hdl : ((3 :: val.length :: val) ++ [0xFE]).length = val.length + 3 := by
    simp
  rw [hdl]
  rw [if_neg (by omega)]
  have hg0 : jsGet ((3 :: val.length :: val) ++ [0xFE]) 0 = 3 := rfl
  rw [if_neg (by rw [hg0]; decide)]
  have hcast : (((val.length + 3 : Nat) : Int) - 1)
      = (((3 :: val.length :: val).length : Nat) : Int) := by
    simp
    omega
  have hglast : jsGet ((3 :: val.length :: val) ++ [0xFE])
      (((val.length + 3 : Nat) : Int) - 1) = 0xFE := by
    rw [hcast, jsGet_pre_zero]
    rfl
  rw [if_neg (by rw [hglast]; decide)]
  have hg1 : jsGet ((3 :: val.length :: val) ++ [0xFE]) 1 = val.length := rfl
  rw [hg1]
  rw [if_pos (by omega)]
  dsimp only
  rw [if_neg (by omega)]
  rw [if_neg (by omega)]
  rw [if_neg (by omega)]
  congr 1
  rw [hcast]
  rw [jsSlice_coe _ _ _ (by simp) (by simp)]
  rw [List.take_left]
  rfl

/-- Encoder-side builder `createNDEFRecordMediaApplicationJson` of
`src/records/media.ts`, reduced to its wire-relevant fields: TNF `media`,
type `application/json`, the optional id, raw payload
`TextEncoder.encode(JSON.stringify(payload))`. -/
def createNDEFRecordMediaApplicationJson {α : Type} (jsonStringify : α → List Nat)
    (payload : α) (id : Option (List Nat)) : ERecord :=
  { tnf := .media, rawType := mediaJsonBytes, rawId := id,
    rawPayload := jsonStringify payload }

/-- Encoder-side builder `createNDEFRecordMediaTextPlain` of
`src/records/media.ts`: TNF `media`, type `text/plain`, payload the
UTF-8 bytes of the text. -/
def createNDEFRecordMediaTextPlain (payload : List Nat)
    (id : Option (List Nat)) : ERecord :=
  { tnf := .media, rawType := mediaTextPlainBytes, rawId := id,
    rawPayload := payload }

/-- Encoder-side builder `createNDEFRecordMediaTextHTML` of
`src/records/media.ts`. -/
def createNDEFRecordMediaTextHTML (payload : List Nat)
    (id : Option (List Nat)) : ERecord :=
  { tnf := .media, rawType := mediaTextHTMLBytes, rawId := id,
    rawPayload := payload }

/-- Encoder-side builder `createNDEFRecordMediaImagePNG` of
`src/records/media.ts`: the binary payload bytes are stored verbatim. -/
def createNDEFRecordMediaImagePNG (payload : List Nat)
    (id : Option (List Nat)) : ERecord :=
  { tnf := .media, rawType := mediaImagePNGBytes, rawId := id,
    rawPayload := payload }

/-- Encoder-side builder `createNDEFRecordMediaImageJPEG` of
`src/records/media.ts`. -/
def createNDEFRecordMediaImageJPEG (payload : List Nat)
    (id : Option (List Nat)) : ERecord :=
  { tnf := .media, rawType := mediaImageJPEGBytes, rawId := id,
    rawPayload := payload }

/-- Encoder-side builder `createNDEFRecordMediaVideoMP4` of
`src/records/media.ts`. -/
def createNDEFRecordMediaVideoMP4 (payload : List Nat)
    (id : Option (List Nat)) : ERecord :=
  { tnf := .media, rawType := mediaVideoMP4Bytes, rawId := id,
    rawPayload := payload }

/-- Encoder-side builder `createNDEFRecordMediaAudioMPEG` of
`src/records/media.ts`. -/
def createNDEFRecordMediaAudioMPEG (payload : List Nat)
    (id : Option (List Nat)) : ERecord :=
  { tnf := .media, rawType := mediaAudioMPEGBytes, rawId := id,
    rawPayload := payload }

/-- A source payload handed to one of the library's record builders: a URI,
a JSON value, a text string (plain or HTML), or binary bytes for the four
binary media types. -/
inductive SrcVal (α : Type) where
  | uri (u : List Nat)
  | json (v : α)
  | textPlain (s : List Nat)
  | textHTML (s : List Nat)
  | png (b : List Nat)
  | jpeg (b : List Nat)
  | mp4 (b : List Nat)
  | mpeg (b : List Nat)

/-- Build the record for a source payload with the corresponding library
builder (only the URI builder can fail, on an invalid URI). -/
def buildRecord {α : Type} (jsonStringify : α → List Nat) :
    SrcVal α → Option (List Nat) → Except String ERecord
  | .uri u, id => createNDEFRecordWellKnownURI u id
  | .json v, id => .ok (createNDEFRecordMediaApplicationJson jsonStringify v id)
  | .textPlain s, id => .ok (createNDEFRecordMediaTextPlain s id)
  | .textHTML s, id => .ok (createNDEFRecordMediaTextHTML s id)
  | .png b, id => .ok (createNDEFRecordMediaImagePNG b id)
  | .jpeg b, id => .ok (createNDEFRecordMediaImageJPEG b id)
  | .mp4 b, id => .ok (createNDEFRecordMediaVideoMP4 b id)
  | .mpeg b, id => .ok (createNDEFRecordMediaAudioMPEG b id)

/-- The value the `payload()` accessor of a faithfully decoded record must
report: the full URI string, the JSON value, the text string, or the exact
binary bytes. -/
def expectedPayloadValue {α : Type} : SrcVal α → PValue α
  | .uri u => .str u
  | .json v => .json v
  | .textPlain s => .str s
  | .textHTML s => .str s
  | .png b => .bytes b
  | .jpeg b => .bytes b
  | .mp4 b => .bytes b
  | .mpeg b => .bytes b

lemma mapping_lossless (uri : List Nat) (m : PrefixMapping)
    (h : getWellKnownURIPrefixMapping uri = .ok m) :
    reconstructURIFromPrefixCode m.URIIdentifierPrefix m.URISuffix = .ok uri := by
  unfold getWellKnownURIPrefixMapping at h
  split at h
  · exact absurd h (by simp)
  · cases hf : wellKnownURICascade.find? (fun e => e.2.isPrefixOf uri) with
    | none =>
      rw [hf] at h
      dsimp only at h
      rw [← Except.ok.inj h]
      rfl
    | some e =>
      rw [hf] at h
      dsimp only at h
      have hm := Except.ok.inj h
      have hmem := List.mem_of_find?_eq_some hf
      have hp0 := List.find?_some hf
      have hp : e.2.isPrefixOf uri = true := hp0
      obtain ⟨-, hlook⟩ := cascade_entries e hmem
      rw [← hm]
      unfold reconstructURIFromPrefixCode
      dsimp only
      rw [hlook]
      dsimp only
      rw [prefix_append_drop hp]

lemma dispatch_of_built {α : Type} (jsonParse : List Nat → Except String α)
    (jsonStringify : α → List Nat)
    (hjson : ∀ v : α, jsonParse (jsonStringify v) = .ok v)
    (s : SrcVal α) (id : Option (List Nat)) (r : ERecord)
    (hb : buildRecord jsonStringify s id = .ok r) :
    ∃ p, createNDEFRecordFromRawData r.tnf r.rawType r.rawPayload r.rawId = .ok p
      ∧ p.tnf = r.tnf ∧ p.type = r.rawType ∧ p.id = r.rawId
      ∧ p.rawPayload = r.rawPayload
      ∧ p.payload jsonParse = .ok (expectedPayloadValue s) := by
  cases s with
  | uri u =>
    dsimp only [buildRecord] at hb
    unfold createNDEFRecordWellKnownURI at hb
    cases hm : getWellKnownURIPrefixMapping u with
    | error e => rw [hm] at hb; exact absurd hb (by simp)
    | ok m =>
      rw [hm] at hb
      dsimp only at hb
      rw [← Except.ok.inj hb]
      dsimp only [createNDEFRecordFromRawData, createWellKnownRecord]
      rw [if_pos rfl, if_pos rfl]
      unfold createNDEFRecordWellKnownURIFromBytes
      rw [if_neg (by simp)]
      dsimp only
      rw [show (([m.URIIdentifierPrefix] ++ m.URISuffix).headD 0) = m.URIIdentifierPrefix
          from rfl]
      rw [show (([m.URIIdentifierPrefix] ++ m.URISuffix).drop 1) = m.URISuffix from rfl]
      rw [mapping_lossless u m hm]
      exact ⟨_, rfl, rfl, rfl, rfl, rfl, rfl⟩
  | json v =>
    dsimp only [buildRecord] at hb
    rw [← Except.ok.inj hb]
    refine ⟨createNDEFRecordMediaApplicationJsonFromBytes (jsonStringify v) id,
      ?_, rfl, rfl, rfl, rfl, ?_⟩
    · dsimp only [createNDEFRecordFromRawData, createNDEFRecordMediaApplicationJson]
      rw [if_neg (by decide)]
      rw [if_pos rfl]
      dsimp only [createMediaRecord]
      rw [if_pos rfl]
    · dsimp only [PRecord.payload, createNDEFRecordMediaApplicationJsonFromBytes]
      rw [hjson v]
      rfl
  | textPlain t =>
    dsimp only [buildRecord] at hb
    rw [← Except.ok.inj hb]
    refine ⟨createNDEFRecordMediaTextPlainFromBytes t id, ?_, rfl, rfl, rfl, rfl, rfl⟩
    dsimp only [createNDEFRecordFromRawData, createNDEFRecordMediaTextPlain]
    rw [if_neg (by decide)]
    rw [if_pos rfl]
    dsimp only [createMediaRecord]
    rw [if_neg (by decide), if_pos rfl]
  | textHTML t =>
    dsimp only [buildRecord] at hb
    rw [← Except.ok.inj hb]
    refine ⟨createNDEFRecordMediaTextHTMLFromBytes t id, ?_, rfl, rfl, rfl, rfl, rfl⟩
    dsimp only [createNDEFRecordFromRawData, createNDEFRecordMediaTextHTML]
    rw [if_neg (by decide)]
    rw [if_pos rfl]
    dsimp only [createMediaRecord]
    rw [if_neg (by decide), if_neg (by decide), if_pos rfl]
  | png b =>
    dsimp only [buildRecord] at hb
    rw [← Except.ok.inj hb]
    refine ⟨createNDEFRecordMediaImagePNGFromBytes b id, ?_, rfl, rfl, rfl, rfl, rfl⟩
    dsimp only [createNDEFRecordFromRawData, createNDEFRecordMediaImagePNG]
    rw [if_neg (by decide)]
    rw [if_pos rfl]
    dsimp only [createMediaRecord]
    rw [if_neg (by decide), if_neg (by decide), if_neg (by decide), if_pos rfl]
  | jpeg b =>
    dsimp only [buildRecord] at hb
    rw [← Except.ok.inj hb]
    refine ⟨createNDEFRecordMediaImageJPEGFromBytes b id, ?_, rfl, rfl, rfl, rfl, rfl⟩
    dsimp only [createNDEFRecordFromRawData, createNDEFRecordMediaImageJPEG]
    rw [if_neg (by decide)]
    rw [if_pos rfl]
    dsimp only [createMediaRecord]
    rw [if_neg (by decide), if_neg (by decide), if_neg (by decide), if_neg (by decide),
      if_pos rfl]
  | mp4 b =>
    dsimp only [buildRecord] at hb
    rw [← Except.ok.inj hb]
    refine ⟨createNDEFRecordMediaVideoMP4FromBytes b id, ?_, rfl, rfl, rfl, rfl, rfl⟩
    dsimp only [createNDEFRecordFromRawData, createNDEFRecordMediaVideoMP4]
    rw [if_neg (by decide)]
    rw [if_pos rfl]
    dsimp only [createMediaRecord]
    rw [if_neg (by decide), if_neg (by decide), if_neg (by decide), if_neg (by decide),
      if_neg (by decide), if_pos rfl]
  | mpeg b =>
    dsimp only [buildRecord] at hb
    rw [← Except.ok.inj hb]
    refine ⟨createNDEFRecordMediaAudioMPEGFromBytes b id, ?_, rfl, rfl, rfl, rfl, rfl⟩
    dsimp only [createNDEFRecordFromRawData, createNDEFRecordMediaAudioMPEG]
    rw [if_neg (by decide)]
    rw [if_pos rfl]
    dsimp only [createMediaRecord]
    rw [if_neg (by decide), if_neg (by decide), if_neg (by decide), if_neg (by decide),
      if_neg (by decide), if_neg (by decide), if_pos rfl]

lemma toBytes_infos_getElem (records : List ERecord) (i : Nat)
    (h1 : i < (records.mapIdx fun index r =>
      ({ record := r, isBeginning := index == 0,
         isEnd := index == records.length - 1 } : RecordInfo)).length)
    (h2 : i < records.length) :
    (records.mapIdx fun index r =>
      ({ record := r, isBeginning := index == 0,
         isEnd := index == records.length - 1 } : RecordInfo))[i]
      = { record := records[i], isBeginning := i == 0,
          isEnd := i == records.length - 1 } :=
  List.getElem_mapIdx

lemma parseNDEFMessage_of_toBytes (records : List ERecord) (recs : List PRecord)
    (bytes : List Nat) (hne : records ≠ [])
    (hshort : ∀ r ∈ records, r.rawPayload.length < 256)
    (htb : toBytes records = .ok bytes)
    (hdisp : records.mapM (fun r => createNDEFRecordFromRawData r.tnf r.rawType
        r.rawPayload r.rawId) = .ok recs) :
    parseNDEFMessage bytes = .ok recs := by
  unfold toBytes at htb
  have hrlen : 0 < records.length := List.length_pos.mpr hne
  set infos := records.mapIdx fun index r =>
    ({ record := r, isBeginning := index == 0,
       isEnd := index == records.length - 1 } : RecordInfo) with hinfos
  have hilen : infos.length = records.length := by
    rw [hinfos]; exact List.length_mapIdx
  have higet : ∀ i (hi1 : i < infos.length) (hi2 : i < records.length),
      infos[i] = { record := records[i], isBeginning := i == 0,
                   isEnd := i == records.length - 1 } := by
    intro i hi1 hi2
    have hi1b : i < (records.mapIdx fun index r =>
        ({ record := r, isBeginning := index == 0,
           isEnd := index == records.length - 1 } : RecordInfo)).length := by
      rw [← hinfos]; exact hi1
    exact toBytes_infos_getElem records i hi1b hi2
  obtain ⟨parts, hm, h254, hbytes⟩ := constructBytes_ok_shape infos bytes
    (by intro h0; rw [h0] at hilen; simp at hilen; omega) htb
  have hplen := mapM_ok_length _ _ _ hm
  rw [hilen] at hplen
  set ps := infos.zip parts with hps
  have hpslen : ps.length = records.length := by
    rw [hps, List.length_zip]; omega
  have hpsne : ps ≠ [] := by
    intro h0
    rw [h0] at hpslen
    simp at hpslen
    omega
  have henc2 : ∀ p ∈ ps, constructBytesFromRecordInfo p.1 = .ok p.2 :=
    mapM_ok_zip_forall _ infos parts hm
  have hshort2 : ∀ p ∈ ps, p.1.record.rawPayload.length < 256 := by
    intro p hp
    obtain ⟨i, hi, hgi⟩ := List.mem_iff_getElem.mp hp
    have hi2 : i < infos.length := by omega
    have hi3 : i < parts.length := by omega
    have hi4 : i < records.length := by omega
    have hz : ps[i] = (infos[i], parts[i]) := List.getElem_zip
    rw [← hgi, hz]
    dsimp only
    rw [higet i hi2 hi4]
    exact hshort _ (List.getElem_mem hi4)
  have hdisp2 : ps.mapM (fun p => createNDEFRecordFromRawData p.1.record.tnf
      p.1.record.rawType p.1.record.rawPayload p.1.record.rawId) = .ok recs := by
    rw [mapM_ext_of_getElem
      (fun p : RecordInfo × List Nat => createNDEFRecordFromRawData p.1.record.tnf
        p.1.record.rawType p.1.record.rawPayload p.1.record.rawId)
      (fun r : ERecord => createNDEFRecordFromRawData r.tnf r.rawType
        r.rawPayload r.rawId)
      ps records hpslen ?_]
    · exact hdisp
    · intro i h1 h2
      have hi2 : i < infos.length := by omega
      have hi3 : i < parts.length := by omega
      have hz : ps[i] = (infos[i], parts[i]) := List.getElem_zip
      rw [hz]
      dsimp only
      rw [higet i hi2 h2]
  have hmid : ∀ p ∈ ps.dropLast, p.1.isEnd = false := by
    intro p hp
    obtain ⟨i, hi, hgi⟩ := List.mem_iff_getElem.mp hp
    have hiL : i < ps.length - 1 := by
      rw [List.length_dropLast] at hi; omega
    have hip : i < ps.length := by omega
    have hi2 : i < infos.length := by omega
    have hi3 : i < parts.length := by omega
    have hi4 : i < records.length := by omega
    have hgd : ps.dropLast[i] = ps[i] := List.getElem_dropLast ps i hi
    have hz : ps[i] = (infos[i], parts[i]) := List.getElem_zip
    rw [← hgi, hgd, hz]
    dsimp only
    rw [higet i hi2 hi4]
    exact beq_false_of_ne (by omega)
  have hlast : ∀ p ∈ ps.getLast?, p.1.isEnd = true := by
    intro p hp
    rw [Option.mem_def, List.getLast?_eq_getElem?] at hp
    obtain ⟨hb, hg⟩ := List.getElem?_eq_some.mp hp
    have hi2 : ps.length - 1 < infos.length := by omega
    have hi3 : ps.length - 1 < parts.length := by omega
    have hi4 : ps.length - 1 < records.length := by omega
    have hz : ps[ps.length - 1] = (infos[ps.length - 1], parts[ps.length - 1]) :=
      List.getElem_zip
    rw [← hg, hz]
    dsimp only
    rw [higet (ps.length - 1) hi2 hi4]
    simp
    omega
  have hplb3 : ∀ x ∈ parts, 3 ≤ x.length := by
    intro x hx
    obtain ⟨i, hi3, hgi⟩ := List.mem_iff_getElem.mp hx
    have hip : i < ps.length := by omega
    have hi2 : i < infos.length := by omega
    have hz : ps[i] = (infos[i], parts[i]) := List.getElem_zip
    have he := henc2 ps[i] (List.getElem_mem hip)
    rw [hz] at he
    dsimp only at he
    rw [hgi] at he
    have hlb := encoded_length_lb (infos[i]).record (infos[i]).isBeginning
      (infos[i]).isEnd x he
    omega
  have h3flat : 3 ≤ parts.flatten.length := by
    cases hpc : parts with
    | nil =>
      exfalso
      rw [hpc, List.length_nil] at hplen
      omega
    | cons x xs =>
      have hx3 := hplb3 x (by rw [hpc]; exact List.mem_cons_self _ _)
      simp only [List.flatten_cons, List.length_append]
      omega
  have hfuel : ps.length ≤ parts.flatten.length := by
    have h1le := length_le_flatten_length parts (fun x hx => by
      have := hplb3 x hx; omega)
    omega
  rw [hbytes]
  unfold parseNDEFMessage
  rw [show (3 : Nat) :: parts.flatten.length :: (parts.flatten ++ [0xFE])
      = 3 :: ((parts.flatten.length :: parts.flatten) ++ [0xFE]) from rfl]
  rw [strip_noop]
  rw [if_neg (by simp)]
  rw [show (3 : Nat) :: ((parts.flatten.length :: parts.flatten) ++ [0xFE])
      = (3 :: parts.flatten.length :: parts.flatten) ++ [0xFE] from rfl]
  rw [validateAndStripTLV_of_wrapped parts.flatten h3flat h254]
  dsimp only
  rw [if_neg (by omega)]
  have hsnd : ps.map Prod.snd = parts :=
    List.map_snd_zip infos parts (by omega)
  have hloop := parseLoopF_of_encoded ps recs [] parts.flatten.length hpsne henc2
    hshort2 hdisp2 hmid hlast (by omega)
  rw [hsnd] at hloop
  simp only [List.nil_append, List.length_nil, Nat.cast_zero] at hloop
  exact hloop

lemma parseNDEFMessage_toBytes_single (r : ERecord) (bytes : List Nat)
    (hshort : r.rawPayload.length < 256)
    (htb : toBytes [r] = .ok bytes) :
    parseNDEFMessage bytes =
      (createNDEFRecordFromRawData r.tnf r.rawType r.rawPayload r.rawId).map
        (fun p => [p]) := by
  have htb2 : constructBytes [{ record := r, isBeginning := true, isEnd := true }]
      = .ok bytes := htb
  obtain ⟨parts, hm, h254, hbytes⟩ := constructBytes_ok_shape _ bytes (by simp) htb2
  rw [exceptMapM_cons] at hm
  cases he : constructBytesFromRecordInfo { record := r, isBeginning := true, isEnd := true } with
  | error e => rw [he] at hm; exact absurd hm (by simp)
  | ok e1 =>
    rw [he] at hm
    dsimp only at hm
    have hparts : parts = [e1] := (Except.ok.inj hm).symm
    subst hparts
    have hflat : ([e1] : List (List Nat)).flatten = e1 := by simp
    rw [hflat] at h254 hbytes
    have hlb := encoded_length_lb r true true e1 he
    rw [hbytes]
    unfold parseNDEFMessage
    rw [show (3 : Nat) :: e1.length :: (e1 ++ [0xFE])
        = 3 :: ((e1.length :: e1) ++ [0xFE]) from rfl]
    rw [strip_noop]
    rw [if_neg (by simp)]
    rw [show (3 : Nat) :: ((e1.length :: e1) ++ [0xFE])
        = (3 :: e1.length :: e1) ++ [0xFE] from rfl]
    rw [validateAndStripTLV_of_wrapped e1 (by omega) h254]
    dsimp only
    rw [if_neg (by omega)]
    obtain ⟨f, hf⟩ : ∃ f, e1.length = f + 1 := ⟨e1.length - 1, by omega⟩
    rw [hf]
    unfold parseLoopF
    have hpos : (0 : Int) < ((e1.length : Nat) : Int) := by omega
    rw [if_pos hpos]
    dsimp only
    have hparse := parseNDEFRecord_of_encoded r true true e1 [] [] he hshort
    simp only [List.nil_append, List.append_nil, List.length_nil, Nat.cast_zero,
      Nat.zero_add] at hparse
    rw [hparse]
    cases hF : createNDEFRecordFromRawData r.tnf r.rawType r.rawPayload r.rawId with
    | error e => rfl
    | ok prec =>
      dsimp only [Except.map]
      rw [if_pos rfl]

/-- C1: encode/decode round-trip.  For every nonempty sequence of source
payloads handed to the library's record builders (URI, JSON, plain/HTML
text, PNG/JPEG/MP4/MPEG binary), with JSON serialization inverted by the
given JSON parser and every raw payload under 256 bytes: if message-level
encoding (`NDEFMessage.toBytes`) succeeds, then `parseNDEFMessage` of its
output succeeds and yields exactly one decoded record per source record
with identical TNF category, type identifier, id and raw payload bytes,
and whose `payload()` accessor reports the original source value — the URI
string, the JSON value (value-equal), the text string, or the exact binary
bytes. -/
theorem c1_encode_decode_round_trip {α : Type}
    (jsonParse : List Nat → Except String α) (jsonStringify : α → List Nat)
    (hjson : ∀ v : α, jsonParse (jsonStringify v) = .ok v)
    (srcs : List (SrcVal α × Option (List Nat))) (records : List ERecord)
    (bytes : List Nat)
    (hne : srcs ≠ [])
    (hbuild : srcs.mapM (fun s => buildRecord jsonStringify s.1 s.2) = .ok records)
    (hshort : ∀ r ∈ records, r.rawPayload.length < 256)
    (htb : toBytes records = .ok bytes) :
    ∃ recs, parseNDEFMessage bytes = .ok recs
      ∧ recs.length = records.length
      ∧ ∀ i (h1 : i < records.length) (h2 : i < recs.length) (h3 : i < srcs.length),
          (recs[i]).tnf = (records[i]).tnf
          ∧ (recs[i]).type = (records[i]).rawType
          ∧ (recs[i]).id = (records[i]).rawId
          ∧ (recs[i]).rawPayload = (records[i]).rawPayload
          ∧ (recs[i]).payload jsonParse = .ok (expectedPayloadValue (srcs[i]).1) := by
  have hlen_sr : srcs.length = records.length := mapM_ok_length _ _ _ hbuild
  have hrne : records ≠ [] := by
    intro h0
    apply hne
    rw [h0] at hlen_sr
    simp at hlen_sr
    exact hlen_sr
  have hall : ∀ r ∈ records, ∃ q, createNDEFRecordFromRawData r.tnf r.rawType
      r.rawPayload r.rawId = .ok q := by
    intro r hr
    obtain ⟨i, hi, hgi⟩ := List.mem_iff_getElem.mp hr
    have hi3 : i < srcs.length := by omega
    have hb_i := mapM_ok_getElem _ srcs records hbuild i hi3 hi
    obtain ⟨q, hq, -⟩ := dispatch_of_built jsonParse jsonStringify hjson
      (srcs[i]).1 (srcs[i]).2 (records[i]) hb_i
    rw [← hgi]
    exact ⟨q, hq⟩
  obtain ⟨recs, hrecs⟩ := mapM_ok_of_all _ records hall
  refine ⟨recs, parseNDEFMessage_of_toBytes records recs bytes hrne hshort htb hrecs,
    (mapM_ok_length _ _ _ hrecs).symm, ?_⟩
  intro i h1 h2 h3
  have hb_i := mapM_ok_getElem _ srcs records hbuild i h3 h1
  obtain ⟨q, hq, hprops⟩ := dispatch_of_built jsonParse jsonStringify hjson
    (srcs[i]).1 (srcs[i]).2 (records[i]) hb_i
  have hF_i := mapM_ok_getElem _ records recs hrecs i h1 h2
  rw [hq] at hF_i
  rw [← Except.ok.inj hF_i]
  exact hprops

/-- Records of the concrete message used to witness C1: the single
`text/plain` record with payload `'hi'`. -/
def c1WitnessRecords : List ERecord := [createNDEFRecordMediaTextPlain [104, 105] none]

/-- Source payloads of the C1 witness message. -/
def c1WitnessSrcs : List (SrcVal Unit × Option (List Nat)) :=
  [(SrcVal.textPlain [104, 105], none)]

/-- Encoded bytes of the C1 witness message. -/
def c1WitnessBytes : List Nat :=
  [3, 15, 210, 10, 2, 116, 101, 120, 116, 47, 112, 108, 97, 105, 110, 104, 105, 254]

/-- Witness for C1 at a concrete one-record `text/plain` message. -/
theorem c1_encode_decode_round_trip_witness :
    toBytes c1WitnessRecords = .ok c1WitnessBytes
    ∧ ∃ recs, parseNDEFMessage c1WitnessBytes = .ok recs
      ∧ recs.length = c1WitnessRecords.length
      ∧ ∀ i (h1 : i < c1WitnessRecords.length) (h2 : i < recs.length)
          (h3 : i < c1WitnessSrcs.length),
          (recs[i]).tnf = (c1WitnessRecords[i]).tnf
          ∧ (recs[i]).type = (c1WitnessRecords[i]).rawType
          ∧ (recs[i]).id = (c1WitnessRecords[i]).rawId
          ∧ (recs[i]).rawPayload = (c1WitnessRecords[i]).rawPayload
          ∧ (recs[i]).payload (fun _ => Except.ok ())
              = .ok (expectedPayloadValue (c1WitnessSrcs[i]).1) :=
  ⟨by decide,
   c1_encode_decode_round_trip (fun _ => Except.ok ()) (fun _ => [110, 117, 108, 108])
     (fun v => rfl) c1WitnessSrcs c1WitnessRecords c1WitnessBytes
     (by simp [c1WitnessSrcs]) (by rfl) (by decide) (by decide)⟩

/-- C5: lazy JSON payload failure.  For every structurally well-formed
one-record message whose `application/json` record's payload bytes are not
valid JSON (the given parser rejects them), decode (`parseNDEFMessage`)
succeeds without error; the record's `payload()` accessor fails — only when
invoked — with the underlying JSON parse failure, and `safePayload()` never
fails, returning `success = false` with the error instead. -/
theorem c5_json_lazy_failure {α : Type} (jsonParse : List Nat → Except String α)
    (p : List Nat) (id : Option (List Nat)) (bytes : List Nat) (e : String)
    (hshort : p.length < 256)
    (hbad : jsonParse p = .error e)
    (htb : toBytes [(⟨.media, mediaJsonBytes, id, p⟩ : ERecord)] = .ok bytes) :
    parseNDEFMessage bytes = .ok [createNDEFRecordMediaApplicationJsonFromBytes p id]
    ∧ (createNDEFRecordMediaApplicationJsonFromBytes p id).payload jsonParse = .error e
    ∧ (createNDEFRecordMediaApplicationJsonFromBytes p id).safePayload jsonParse
        = { success := false, payload := none, error := some e } := by
  have hparse := parseNDEFMessage_toBytes_single _ bytes hshort htb
  dsimp only at hparse
  have hdispatch : createNDEFRecordFromRawData TNF.media mediaJsonBytes p id
      = .ok (createNDEFRecordMediaApplicationJsonFromBytes p id) := by
    dsimp only [createNDEFRecordFromRawData]
    rw [if_neg (by decide), if_pos rfl]
    dsimp only [createMediaRecord]
    rw [if_pos rfl]
  rw [hdispatch] at hparse
  refine ⟨hparse, ?_, ?_⟩
  · dsimp only [PRecord.payload, createNDEFRecordMediaApplicationJsonFromBytes]
    rw [hbad]
  · dsimp only [PRecord.safePayload, createNDEFRecordMediaApplicationJsonFromBytes]
    rw [hbad]

/-- Witness for C5: a one-record `application/json` message whose payload
is the single byte `'x'`, with a JSON parser that rejects it. -/
theorem c5_json_lazy_failure_witness :
    toBytes [(⟨.media, mediaJsonBytes, none, [120]⟩ : ERecord)] =
      .ok [3, 20, 210, 16, 1, 97, 112, 112, 108, 105, 99, 97, 116, 105, 111,
           110, 47, 106, 115, 111, 110, 120, 254]
    ∧ (parseNDEFMessage [3, 20, 210, 16, 1, 97, 112, 112, 108, 105, 99, 97,
          116, 105, 111, 110, 47, 106, 115, 111, 110, 120, 254]
        = .ok [createNDEFRecordMediaApplicationJsonFromBytes [120] none]
      ∧ (createNDEFRecordMediaApplicationJsonFromBytes [120] none).payload
          (fun _ => (.error "not valid JSON" : Except String Unit)) = .error "not valid JSON"
      ∧ (createNDEFRecordMediaApplicationJsonFromBytes [120] none).safePayload
          (fun _ => (.error "not valid JSON" : Except String Unit))
          = { success := false, payload := none, error := some "not valid JSON" }) :=
  ⟨by decide,
   c5_json_lazy_failure (fun _ => .error "not valid JSON") [120] none _
     "not valid JSON" (by decide) rfl (by decide)⟩

/-- C8: decode iteration stopping.  For any encoded record and any parser
state: (1) after decoding a record whose MessageEnd flag is set the loop
returns immediately, never consuming or validating the bytes that follow
(the trailing `post` is arbitrary and absent from the result); (2) when the
cursor reaches (or passes) the end of the buffer the loop stops with the
records collected so far; and (3) decode never fails merely because of the
begin/end markers the records carry: the MessageBegin flag `mb` is
arbitrary throughout, and a message whose sole record lacks the MessageEnd
flag still decodes (the loop then stops at the end of the buffer). -/
theorem c8_decode_stopping (r : ERecord) (mb : Bool) (enc post : List Nat)
    (prec : PRecord) (f : Nat)
    (hshort : r.rawPayload.length < 256)
    (henc : constructBytesFromRecordInfo
        { record := r, isBeginning := mb, isEnd := true } = .ok enc)
    (hdisp : createNDEFRecordFromRawData r.tnf r.rawType r.rawPayload r.rawId
        = .ok prec) :
    parseLoopF (enc ++ post) (f + 1) 0 = .ok [prec]
    ∧ (∀ (d : List Nat) (fuel : Nat) (o : Int), (d.length : Int) ≤ o →
        parseLoopF d fuel o = .ok [])
    ∧ (∀ enc', constructBytesFromRecordInfo
        { record := r, isBeginning := mb, isEnd := false } = .ok enc' →
        parseLoopF enc' (f + 2) 0 = .ok [prec]) := by
  have hlb := encoded_length_lb r mb true enc henc
  refine ⟨?_, ?_, ?_⟩
  · have hparse := parseNDEFRecord_of_encoded r mb true enc [] post henc hshort
    simp only [List.nil_append, List.length_nil, Nat.cast_zero, Nat.zero_add] at hparse
    rw [hdisp] at hparse
    unfold parseLoopF
    rw [if_pos (by simp only [List.length_append]; omega)]
    dsimp only
    rw [hparse]
    dsimp only [Except.map]
    rw [if_pos rfl]
  · intro d fuel o ho
    unfold parseLoopF
    rw [if_neg (by omega)]
  · intro enc' henc'
    have hlb' := encoded_length_lb r mb false enc' henc'
    have hparse' := parseNDEFRecord_of_encoded r mb false enc' [] [] henc' hshort
    simp only [List.nil_append, List.append_nil, List.length_nil, Nat.cast_zero,
      Nat.zero_add] at hparse'
    rw [hdisp] at hparse'
    unfold parseLoopF
    rw [if_pos (by omega)]
    dsimp only
    rw [hparse']
    dsimp only [Except.map]
    rw [if_neg (by simp)]
    have hstop : parseLoopF enc' (f + 1) ((enc'.length : Nat) : Int) = .ok [] := by
      unfold parseLoopF
      rw [if_neg (by omega)]
    rw [hstop]

/-- The record used to witness C8: the well-known URI record for
`http://www.nfc.com` (payload prefix code 0x01, suffix `'nfc.com'`). -/
def c8WitnessRecord : ERecord :=
  ⟨.wellKnown, uTypeBytes, none, 1 :: [110, 102, 99, 46, 99, 111, 109]⟩

/-- The decoded form of the C8 witness record. -/
def c8WitnessParsed : PRecord :=
  { tnf := .wellKnown, type := [85], id := none,
    rawPayload := [1, 110, 102, 99, 46, 99, 111, 109], isIdentified := true,
    payloadVal := .uri nfcExampleURIBytes }

/-- Witness for C8 at the concrete `http://www.nfc.com` record followed by
an arbitrary garbage byte. -/
theorem c8_decode_stopping_witness :
    constructBytesFromRecordInfo
        { record := c8WitnessRecord, isBeginning := true, isEnd := true }
      = .ok [209, 1, 8, 85, 1, 110, 102, 99, 46, 99, 111, 109]
    ∧ (parseLoopF ([209, 1, 8, 85, 1, 110, 102, 99, 46, 99, 111, 109] ++ [7]) (0 + 1) 0
        = .ok [c8WitnessParsed]
      ∧ (∀ (d : List Nat) (fuel : Nat) (o : Int), (d.length : Int) ≤ o →
          parseLoopF d fuel o = .ok [])
      ∧ (∀ enc', constructBytesFromRecordInfo
          { record := c8WitnessRecord, isBeginning := true, isEnd := false } = .ok enc' →
          parseLoopF enc' (0 + 2) 0 = .ok [c8WitnessParsed])) :=
  ⟨by decide,
   c8_decode_stopping c8WitnessRecord true
     [209, 1, 8, 85, 1, 110, 102, 99, 46, 99, 111, 109] [7] c8WitnessParsed 0
     (by decide) (by decide) (by decide)⟩

/-- C9: well-known URI payload reconstruction is eager.  For every
structurally well-formed one-record message whose well-known record of type
`'U'` has an empty payload or a first payload byte above 0x23 (no such
prefix code exists), `parseNDEFMessage` itself fails during the decode pass
with the corresponding constructor error — no partial message is returned
and the failure is not deferred to a payload accessor. -/
theorem c9_uri_reconstruction_eager (p : List Nat) (id : Option (List Nat))
    (bytes : List Nat)
    (hshort : p.length < 256)
    (hbad : p = [] ∨ 0x23 < p.headD 0)
    (htb : toBytes [(⟨.wellKnown, uTypeBytes, id, p⟩ : ERecord)] = .ok bytes) :
    parseNDEFMessage bytes = .error
      (if p = [] then "URI record payload cannot be empty"
       else "Invalid prefix code") := by
  have hparse := parseNDEFMessage_toBytes_single _ bytes hshort htb
  dsimp only at hparse
  have hdispatch : createNDEFRecordFromRawData TNF.wellKnown uTypeBytes p id
      = .error (if p = [] then "URI record payload cannot be empty"
                else "Invalid prefix code") := by
    dsimp only [createNDEFRecordFromRawData, createWellKnownRecord]
    rw [if_pos rfl, if_pos rfl]
    unfold createNDEFRecordWellKnownURIFromBytes
    by_cases hpe : p = []
    · rw [if_pos (by rw [hpe]; rfl)]
      rw [if_pos hpe]
    · rw [if_neg (by simpa [List.length_eq_zero] using hpe)]
      have hbig : 0x23 < p.headD 0 := hbad.resolve_left hpe
      dsimp only
      unfold reconstructURIFromPrefixCode
      rw [lookup_none_of_all_lt prefixMappings (by decide) hbig]
      dsimp only
      rw [if_neg hpe]
  rw [hdispatch] at hparse
  exact hparse

/-- Witness for C9 at the payload `[0x24]`, whose first byte is just past
the largest known prefix code 0x23. -/
theorem c9_uri_reconstruction_eager_witness :
    (([0x24] : List Nat) = [] ∨ 0x23 < ([0x24] : List Nat).headD 0)
    ∧ toBytes [(⟨.wellKnown, uTypeBytes, none, [0x24]⟩ : ERecord)]
        = .ok [3, 5, 209, 1, 1, 85, 36, 254]
    ∧ parseNDEFMessage [3, 5, 209, 1, 1, 85, 36, 254] = .error
        (if ([0x24] : List Nat) = [] then "URI record payload cannot be empty"
         else "Invalid prefix code") :=
  ⟨by decide, by decide,
   c9_uri_reconstruction_eager [0x24] none [3, 5, 209, 1, 1, 85, 36, 254]
     (by decide) (by decide) (by decide)⟩
